import Mathlib

/-!
Shallow embedding of the crawler engine in pycrawl/crawler.py, together with
theorems checking the natural-language specification of the engine against it.

The embedding models the orchestration core: the crawl error dispatch
(Crawler.crawl together with Crawler.errorHandlers, Crawler.responseNotOkHandlers,
Crawler.skipUrl and Crawler.noSubmissionHandler), the tiered retry queue drain
(Crawler.checkSkips), the target sequencer (Crawler.urlGenerator) driven by the
run loop (Crawler.run), and the publisher retry loop (Crawler._send).

External effects are abstracted as oracles:
  * the outcome of one fetch-parse-publish attempt is one `Outcome` value,
    consumed from a list, one per call of `crawl`;
  * the timed condition `time.time() > nextcheck` of the run loop is a list of
    booleans, one consumed per run-loop iteration;
  * `event.is_set()` polls are a list of booleans, one consumed per poll.
Sleeps are irrelevant to the claims and are dropped; log emissions are kept as
a list of log levels returned by `crawl`.

Targets are modelled as integers (the cursor mode of the engine yields the
integer id itself; explicit targets are opaque identities, and nothing in the
core inspects them beyond equality).
-/

namespace Pycrawl

/-- Outcome of a single fetch-extract-publish attempt, i.e. which exception (if
any) escapes `self.parse(self.downloadHtml(...))` / `self.send(...)` inside
`Crawler.crawl`. The exception classes of the missing pycrawl.common module are
modelled as distinct, unrelated kinds, matching the spec's error taxonomy
(`ResponseNotOk` carries the integer status). `unknownError` stands for any
exception type that has no entry in `Crawler.errorHandlers`. -/
inductive Outcome
  | ok
  | responseNotOk (status : Int)
  | noSubmission
  | invalidSubmission
  | websiteOffline
  | invalidResponseType
  | connectionError
  | sslError
  | readTimeout
  | badOrMalformedResponse
  | unknownError
  deriving DecidableEq, Repr

/-- Log levels emitted by the handlers in `Crawler.crawl`. -/
inductive Lg
  | err
  | warn
  | info
  deriving DecidableEq, Repr

/-- Result of one `Crawler.crawl` call: either a Python return value
(`some true` = True, `some false` = False, `none` = an implicit None from
falling off the end of the function), or a raised `ShutdownCrawler`.
`idleAfter` records that `noSubmissionHandler` reached its threshold and calls
`self.idle()` (a retry-queue drain) before `crawl` returns. -/
inductive CrawlRes
  | ret (v : Option Bool) (idleAfter : Bool)
  | shutdown
  deriving DecidableEq, Repr

/-- Python truthiness of the value returned by `crawl` (None and False are
falsy, True is truthy). -/
def isTruthy : Option Bool → Bool
  | some true => true
  | _ => false

/-- Truthiness of a `CrawlRes`; a raised exception never reaches the
`if self.crawl(url):` test, so it counts as not-truthy. -/
def resTruthy : CrawlRes → Bool
  | .ret v _ => isTruthy v
  | .shutdown => false

/-- Constructor-time configuration of the engine: `direction` is the signed
step, `skipMax` the idle-backoff threshold, `endingid` the optional bound. -/
structure Cfg where
  direction : Int
  skipMax : Nat
  endingid : Option Int
  deriving DecidableEq, Repr

/-- Mutable state of the engine: the cursor `id`, the retry tiers `skipped`
(each tier a list, appended at the tail, popped from the tail), the explicit
re-queue list `urls` (popped from the head, appended at the tail), the
consecutive-no-submission counter and the `checkingSkips` flag. -/
structure CState where
  id : Int
  skipped : List (List Int)
  urls : List Int
  consecutiveNoSubmissions : Nat
  checkingSkips : Bool
  deriving DecidableEq, Repr

/-- `int(e.status / 100) * 100` of Python: division truncated toward zero. -/
def hundredBucket (status : Int) : Int := status.tdiv 100 * 100

/-- Append `u` to tier `i` of the tier tuple (Python `self.skipped[i].append(u)`). -/
def tierAppend (sk : List (List Int)) (i : Nat) (u : Int) : List (List Int) :=
  sk.set i ((sk.getD i []) ++ [u])

/-- `Crawler.skipUrl` without its optional callback: push the current url onto
tier 0, unless a drain pass is in progress. -/
def skipUrl (u : Int) (s : CState) : CState :=
  if s.checkingSkips then s else { s with skipped := tierAppend s.skipped 0 u }

/-- `Crawler.totalSkipped`: the number of entries pending across all tiers. -/
def totalSkipped (sk : List (List Int)) : Nat := (sk.map List.length).sum

/-- `Crawler.noSubmissionHandler`. During forward crawling outside a drain
pass it pushes the target onto tier 0 and bumps the counter; at the threshold
it deletes the last `counter` entries of tier 0 (`del self.skipped[0][-c:]`),
rewinds the cursor by `counter * direction`, resets the counter and requests an
idle drain. In a drain pass, or crawling backward, it returns True. -/
def noSubmissionHandler (cfg : Cfg) (u : Int) (s : CState) : CState × CrawlRes × List Lg :=
  if cfg.direction > 0 ∧ s.checkingSkips = false then
    let s1 := skipUrl u s
    let c := s1.consecutiveNoSubmissions + 1
    if cfg.skipMax ≤ c then
      let t0 := s1.skipped.getD 0 []
      ({ s1 with
          skipped := s1.skipped.set 0 (t0.take (t0.length - c)),
          id := s1.id - (c : Int) * cfg.direction,
          consecutiveNoSubmissions := 0 },
       .ret (some false) true, [.info])
    else ({ s1 with consecutiveNoSubmissions := c }, .ret (some false) false, [])
  else (s, .ret (some true) false, [])

/-- `Crawler.crawl` for target `u`, given the attempt's outcome `o`: the state
update, the return value (or raised ShutdownCrawler), and the emitted log
levels. A 503 or a -1 status re-queues the target onto `self.urls` and falls
off the end of the function (returning None); a recognized hundred-bucket runs
its `responseNotOkHandlers` entry; an unrecognized bucket does nothing. The
generic handlers follow `Crawler.errorHandlers` (with `doNotLog` suppressing
the NoSubmission and ResponseNotOk log records). -/
def crawl (cfg : Cfg) (u : Int) (o : Outcome) (s : CState) : CState × CrawlRes × List Lg :=
  match o with
  | .ok => (s, .ret (some true) false, [])
  | .responseNotOk status =>
      if status = 503 then ({ s with urls := s.urls ++ [u] }, .ret none false, [])
      else if status = -1 then ({ s with urls := s.urls ++ [u] }, .ret none false, [])
      else if hundredBucket status = 0 then (skipUrl u s, .ret none false, [.err])
      else if hundredBucket status = 400 then (skipUrl u s, .ret none false, [.warn])
      else if hundredBucket status = 500 then (skipUrl u s, .ret none false, [])
      else (s, .ret none false, [])
  | .noSubmission => noSubmissionHandler cfg u s
  | .invalidSubmission => (s, .ret (some true) false, [.info])
  | .websiteOffline => (skipUrl u s, .ret none false, [.info])
  | .invalidResponseType => (skipUrl u s, .ret none false, [.info])
  | .connectionError => (skipUrl u s, .ret none false, [.info])
  | .sslError => (skipUrl u s, .ret none false, [.info])
  | .readTimeout => (skipUrl u s, .ret none false, [.info])
  | .badOrMalformedResponse => (s, .shutdown, [.info])
  | .unknownError => (s, .shutdown, [.err])

/-- Outcomes whose handler is a shutdown (raises ShutdownCrawler). -/
def Fatal : Outcome → Bool
  | .badOrMalformedResponse => true
  | .unknownError => true
  | _ => false

/-- An outcome oracle none of whose entries is fatal. -/
def NF (os : List Outcome) : Prop := ∀ o ∈ os, Fatal o = false

/-- Result of a drain pass (or a piece of one): final state, remaining outcome
oracle, the trace of (tier index, target) re-crawl attempts in order, and
whether a ShutdownCrawler aborted the pass. -/
structure DrainOut where
  s : CState
  os : List Outcome
  tr : List (Nat × Int)
  abort : Bool
  deriving DecidableEq, Repr

/-- The inner while loop of `Crawler.checkSkips` for tier `i` (with
`ml = len(self.skipped) - 1`): pop from the tail of the tier until it is
empty, re-crawl each popped target, and on a falsy result push it onto tier
`i+1` when `i < ml`. The argument list is the tier read tail-first (that is,
`rev.reverse` is the tier's stored order). -/
def drainTierGo (cfg : Cfg) (i ml : Nat) :
    List Int → CState → List Outcome → DrainOut
  | [], s, os => ⟨s, os, [], false⟩
  | u :: rest, s, os =>
      let s1 := { s with skipped := s.skipped.set i rest.reverse }
      let t := crawl cfg u (os.headD .ok) s1
      match t.2.1 with
      | .shutdown => ⟨t.1, os.tail, [(i, u)], true⟩
      | .ret v _ =>
          let s3 :=
            if isTruthy v then t.1
            else if i < ml then { t.1 with skipped := tierAppend t.1.skipped (i+1) u }
            else t.1
          let r := drainTierGo cfg i ml rest s3 os.tail
          ⟨r.s, r.os, (i, u) :: r.tr, r.abort⟩

/-- The outer for loop of `Crawler.checkSkips`: process tiers `i` down to 0. -/
def drainFrom (cfg : Cfg) (ml : Nat) :
    Nat → CState → List Outcome → DrainOut
  | 0, s, os => drainTierGo cfg 0 ml ((s.skipped.getD 0 []).reverse) s os
  | i+1, s, os =>
      let r := drainTierGo cfg (i+1) ml ((s.skipped.getD (i+1) []).reverse) s os
      if r.abort then r
      else
        let r2 := drainFrom cfg ml i r.s r.os
        ⟨r2.s, r2.os, r.tr ++ r2.tr, r2.abort⟩

/-- `Crawler.checkSkips`: set the `checkingSkips` flag, drain the tiers from
the last down to tier 0, and clear the flag (the flag stays set if a
ShutdownCrawler escapes, exactly as in the Python code). -/
def checkSkips (cfg : Cfg) (s : CState) (os : List Outcome) : DrainOut :=
  let s1 := { s with checkingSkips := true }
  let r := drainFrom cfg (s1.skipped.length - 1) (s1.skipped.length - 1) s1 os
  if r.abort then r else ⟨{ r.s with checkingSkips := false }, r.os, r.tr, false⟩

/-- Result of one run-loop iteration body. -/
structure IterOut where
  s : CState
  os : List Outcome
  ds : List Bool
  abort : Bool
  deriving DecidableEq, Repr

/-- One iteration body of `Crawler.run` for the yielded target `u`: call
`crawl` (whose no-submission threshold may run an idle drain before
returning), reset the consecutive counter if the return value was truthy, then
run a timed `checkSkips` when the check interval elapsed (one boolean consumed
from `ds`). An escaped ShutdownCrawler aborts the loop. -/
def runIter (cfg : Cfg) (u : Int) (s : CState) (os : List Outcome) (ds : List Bool) : IterOut :=
  let t := crawl cfg u (os.headD .ok) s
  match t.2.1 with
  | .shutdown => ⟨t.1, os.tail, ds, true⟩
  | .ret v idl =>
      if idl then
        let r := checkSkips cfg t.1 os.tail
        if r.abort then ⟨r.s, r.os, ds, true⟩
        else
          let s2 := if isTruthy v then { r.s with consecutiveNoSubmissions := 0 } else r.s
          if ds.headD false then
            let r2 := checkSkips cfg s2 r.os
            ⟨r2.s, r2.os, ds.tail, r2.abort⟩
          else ⟨s2, r.os, ds.tail, false⟩
      else
        let s2 := if isTruthy v then { t.1 with consecutiveNoSubmissions := 0 } else t.1
        if ds.headD false then
          let r2 := checkSkips cfg s2 os.tail
          ⟨r2.s, r2.os, ds.tail, r2.abort⟩
        else ⟨s2, os.tail, ds.tail, false⟩

/-- A yield of the sequencer: a cursor value, or an entry popped from the
explicit `self.urls` list. -/
inductive Ev
  | cursor (v : Int)
  | url (v : Int)
  deriving DecidableEq, Repr

/-- How a run of the engine ended: the generator was exhausted (`halted`), a
ShutdownCrawler escaped (`aborted`), or the modelling fuel ran out while the
engine would have continued (`fuelOut`). -/
inductive RunRes
  | halted (s : CState)
  | aborted (s : CState)
  | fuelOut (s : CState)
  deriving DecidableEq, Repr

def isHalted : RunRes → Bool
  | .halted _ => true
  | _ => false

/-- A run result together with the sequence of yields that occurred. -/
structure RunOut where
  res : RunRes
  tr : List Ev
  deriving DecidableEq, Repr

/-- The `self.done` predicate built in `Crawler.__init__`: with an ending id,
the bound test in the direction of travel or-ed with the cancellation flag
poll; without one, the flag poll alone. -/
def doneP (cfg : Cfg) (i : Int) (flag : Bool) : Bool :=
  match cfg.endingid with
  | none => flag
  | some e => (if cfg.direction > 0 then decide (e < i) else decide (i < e)) || flag

/-- Result of the inner re-queue drain of the sequencer. -/
structure SeqOut where
  s : CState
  os : List Outcome
  ds : List Bool
  tr : List Ev
  abort : Bool
  deriving DecidableEq, Repr

/-- The `for _ in range(len(self.urls)): yield self.urls.pop(0)` loop of
`Crawler.urlGenerator`, together with the run-loop body executed after each
yield: pop `k` entries from the head of `urls` (the snapshot count taken when
the loop starts), crawling each. -/
def requeueGo (cfg : Cfg) :
    Nat → CState → List Outcome → List Bool → SeqOut
  | 0, s, os, ds => ⟨s, os, ds, [], false⟩
  | k+1, s, os, ds =>
      match s.urls with
      | [] => ⟨s, os, ds, [], false⟩
      | u :: rest =>
          let r := runIter cfg u { s with urls := rest } os ds
          if r.abort then ⟨r.s, r.os, r.ds, [.url u], true⟩
          else
            let r2 := requeueGo cfg k r.s r.os r.ds
            ⟨r2.s, r2.os, r2.ds, .url u :: r2.tr, r2.abort⟩

/-- The cursor branch of `Crawler.urlGenerator` driven by the run loop of
`Crawler.run`: while the done predicate (polled with one flag per iteration)
is false, yield the cursor, run the loop body, advance the cursor by the
direction, then drain the re-queue list (snapshot length) inline. `fuel`
bounds the number of cursor iterations modelled. -/
def runCursor (cfg : Cfg) :
    Nat → CState → List Outcome → List Bool → List Bool → RunOut
  | 0, s, _, _, _ => ⟨.fuelOut s, []⟩
  | fuel+1, s, os, ds, fs =>
      if doneP cfg s.id (fs.headD false) then ⟨.halted s, []⟩
      else
        let u := s.id
        let r := runIter cfg u s os ds
        if r.abort then ⟨.aborted r.s, [.cursor u]⟩
        else
          let s1 := { r.s with id := r.s.id + cfg.direction }
          let q := requeueGo cfg s1.urls.length s1 r.os r.ds
          if q.abort then ⟨.aborted q.s, .cursor u :: q.tr⟩
          else
            let c := runCursor cfg fuel q.s q.os q.ds fs.tail
            ⟨c.res, .cursor u :: (q.tr ++ c.tr)⟩

/-- The explicit branch of `Crawler.urlGenerator` driven by the run loop:
while `self.urls` is non-empty, pop its head, yield it and run the loop body;
the cursor and the done predicate are never consulted. -/
def runExplicit (cfg : Cfg) :
    Nat → CState → List Outcome → List Bool → RunOut
  | 0, s, _, _ => ⟨.fuelOut s, []⟩
  | fuel+1, s, os, ds =>
      match s.urls with
      | [] => ⟨.halted s, []⟩
      | u :: rest =>
          let r := runIter cfg u { s with urls := rest } os ds
          if r.abort then ⟨.aborted r.s, [.url u]⟩
          else
            let c := runExplicit cfg fuel r.s r.os r.ds
            ⟨c.res, .url u :: c.tr⟩

/-- The engine: `Crawler.urlGenerator` picks explicit mode exactly when the
explicit list is non-empty when the generator starts, cursor mode otherwise. -/
def runMachine (cfg : Cfg) (fuel : Nat) (s : CState)
    (os : List Outcome) (ds : List Bool) (fs : List Bool) : RunOut :=
  if s.urls.isEmpty then runCursor cfg fuel s os ds fs else runExplicit cfg fuel s os ds

/-- The for loop of `Crawler._send`: up to `n` basic_publish attempts (the
oracle says whether each attempt succeeds); a connection-state failure
reconnects (`Crawler._mq_connect`, modelled as always succeeding) and retries;
a success breaks. Returns the 1-based attempt number that delivered the
message (none if every attempt failed) and the number of reconnects. -/
def sendLoop : Nat → List Bool → Option Nat × Nat
  | 0, _ => (none, 0)
  | n+1, oracle =>
      if oracle.headD false then (some 1, 0)
      else
        let r := sendLoop n oracle.tail
        (r.1.map (· + 1), r.2 + 1)

/-- `Crawler._send` performs exactly `range(3)` attempts. -/
def sendMessage (oracle : List Bool) : Option Nat × Nat := sendLoop 3 oracle

/-- The order in which a drain pass attempts the pending entries: tiers from
index `i` down to 0, each read tail-first (LIFO). -/
def drainOrderFrom (sk : List (List Int)) : Nat → List (Nat × Int)
  | 0 => (sk.getD 0 []).reverse.map (fun u => (0, u))
  | i+1 => ((sk.getD (i+1) []).reverse.map (fun u => (i+1, u))) ++ drainOrderFrom sk i

/-- Shift the cursor of a state by `t` (used to state that explicit mode never
reads the cursor). -/
def shiftId (t : Int) (s : CState) : CState := { s with id := s.id + t }

/-- The advance-and-requeue part of one cursor iteration (the `self.id +=
self.direction` advance followed by the inner `for _ in range(len(self.urls))`
drain), named so that the step of `runCursor` can be stated without `let`s. -/
def stepQ (cfg : Cfg) (s : CState) (os : List Outcome) (ds : List Bool) : SeqOut :=
  requeueGo cfg
    ({ (runIter cfg s.id s os ds).s with
        id := (runIter cfg s.id s os ds).s.id + cfg.direction } : CState).urls.length
    { (runIter cfg s.id s os ds).s with
        id := (runIter cfg s.id s os ds).s.id + cfg.direction }
    (runIter cfg s.id s os ds).os (runIter cfg s.id s os ds).ds

/-! ## Helper lemmas -/

theorem pc_getD_set_self :
    ∀ (l : List (List Int)) (i : Nat) (a d : List Int),
      i < l.length → (l.set i a).getD i d = a
  | [], _, _, _, h => absurd h (by simp)
  | _ :: _, 0, _, _, _ => rfl
  | _ :: xs, i+1, a, d, h => pc_getD_set_self xs i a d (by simpa using h)

theorem pc_getD_set_ne :
    ∀ (l : List (List Int)) (i j : Nat) (a d : List Int),
      i ≠ j → (l.set i a).getD j d = l.getD j d
  | [], _, _, _, _, _ => by simp
  | _ :: _, 0, 0, _, _, h => absurd rfl h
  | _ :: _, 0, _+1, _, _, _ => rfl
  | _ :: _, _+1, 0, _, _, _ => rfl
  | _ :: xs, i+1, j+1, a, d, h => pc_getD_set_ne xs i j a d (fun e => h (by rw [e]))

theorem pc_getD_len_le :
    ∀ (l : List (List Int)) (i : Nat), l.length ≤ i → l.getD i [] = []
  | [], _, _ => rfl
  | _ :: _, 0, h => by simp at h
  | _ :: xs, i+1, h => pc_getD_len_le xs i (by simpa using h)

theorem pc_getD_replicate :
    ∀ (n i : Nat), (List.replicate n ([] : List Int)).getD i [] = []
  | 0, _ => rfl
  | _+1, 0 => rfl
  | n+1, i+1 => pc_getD_replicate n i

theorem pc_set_getD :
    ∀ (l : List (List Int)) (i : Nat) (v : List Int),
      l.getD i [] = v → l.set i v = l
  | [], _, _, h => by simp_all
  | _ :: _, 0, _, h => by simp_all
  | x :: xs, i+1, v, h => by
      show x :: xs.set i v = x :: xs
      rw [pc_set_getD xs i v h]

theorem pc_NF_tail {os : List Outcome} (h : NF os) : NF os.tail := by
  intro o ho
  exact h o (List.mem_of_mem_tail ho)

theorem pc_NF_headD {os : List Outcome} (h : NF os) : Fatal (os.headD .ok) = false := by
  cases os with
  | nil => rfl
  | cons a l => exact h a (by simp)

theorem pc_NF_drop {os : List Outcome} (n : Nat) (h : NF os) : NF (os.drop n) := by
  intro o ho
  exact h o (List.drop_subset n os ho)

/-- During a drain pass, `crawl` never touches the retry tiers, the
consecutive counter, the cursor, or the flag itself: targets failing while
`checkingSkips` is set are not re-recorded (the drain loop alone redistributes
them). -/
theorem crawl_checking_frame (cfg : Cfg) (u : Int) (o : Outcome) (s : CState)
    (h : s.checkingSkips = true) :
    (crawl cfg u o s).1.skipped = s.skipped
    ∧ (crawl cfg u o s).1.checkingSkips = true
    ∧ (crawl cfg u o s).1.consecutiveNoSubmissions = s.consecutiveNoSubmissions
    ∧ (crawl cfg u o s).1.id = s.id := by
  cases o <;> simp [crawl, noSubmissionHandler, skipUrl, h] <;> split_ifs <;> simp [h]

/-- A non-fatal outcome makes `crawl` return (rather than raise). -/
theorem crawl_ret_of_nonfatal (cfg : Cfg) (u : Int) (o : Outcome) (s : CState)
    (h : Fatal o = false) :
    ∃ v idl, (crawl cfg u o s).2.1 = CrawlRes.ret v idl := by
  cases o <;> simp_all [crawl, noSubmissionHandler, skipUrl, Fatal] <;> split_ifs <;> simp

/-- Draining one tier `i < ml` when every re-crawl fails with a falsy,
non-fatal outcome (an SSL error): every popped entry is escalated, in pop
(LIFO) order, onto the tail of tier `i+1`, and tier `i` is left empty. -/
theorem drainTierGo_ssl_escalate (cfg : Cfg) (i ml : Nat) (hml : i < ml) :
    ∀ (rev : List Int) (s : CState) (os' : List Outcome),
      s.checkingSkips = true →
      s.skipped.getD i [] = rev.reverse →
      i + 1 < s.skipped.length →
      drainTierGo cfg i ml rev s (List.replicate rev.length .sslError ++ os') =
        ⟨{ s with skipped :=
            (s.skipped.set i []).set (i+1) (s.skipped.getD (i+1) [] ++ rev) },
         os', rev.map (fun u => (i, u)), false⟩
  | [], s, os', _, hget, _ => by
      have h1 : s.skipped.set i [] = s.skipped := pc_set_getD _ _ _ (by simpa using hget)
      simp only [drainTierGo, List.length_nil, List.replicate_zero, List.nil_append,
        List.map_nil, h1, List.append_nil, pc_set_getD _ _ _ rfl]
  | u :: rest, s, os', hck, hget, hlen => by
      have hlen' : i < s.skipped.length := Nat.lt_of_succ_lt hlen
      have hcrawl : crawl cfg u Outcome.sslError
          { s with skipped := s.skipped.set i rest.reverse }
          = ({ s with skipped := s.skipped.set i rest.reverse },
             .ret none false, [.info]) := by
        simp [crawl, skipUrl, hck]
      have hg1 : (s.skipped.set i rest.reverse).getD (i+1) [] = s.skipped.getD (i+1) [] :=
        pc_getD_set_ne _ _ _ _ _ (by omega)
      have hgr : (((s.skipped.set i rest.reverse).set (i+1)
            (s.skipped.getD (i+1) [] ++ [u]))).getD i [] =
          rest.reverse := by
        rw [pc_getD_set_ne _ _ _ _ _ (by omega), pc_getD_set_self _ _ _ _ hlen']
      have hIH := drainTierGo_ssl_escalate cfg i ml hml rest
        { s with skipped := ((s.skipped.set i rest.reverse).set (i+1)
            (s.skipped.getD (i+1) [] ++ [u])) }
        os' hck hgr (by simpa using hlen)
      have hg2 : ((s.skipped.set i rest.reverse).set (i+1)
            (s.skipped.getD (i+1) [] ++ [u])).getD (i+1) [] =
          s.skipped.getD (i+1) [] ++ [u] :=
        pc_getD_set_self _ _ _ _ (by simpa using hlen)
      have hsets : (((s.skipped.set i rest.reverse).set (i+1)
              (s.skipped.getD (i+1) [] ++ [u])).set i []).set (i+1)
            ((s.skipped.getD (i+1) [] ++ [u]) ++ rest)
          = (s.skipped.set i []).set (i+1) (s.skipped.getD (i+1) [] ++ (u :: rest)) := by
        rw [List.set_comm _ _ _ (show i + 1 ≠ i by omega)]
        rw [List.set_set, List.set_set, List.append_assoc, List.singleton_append]
      simp only [drainTierGo, List.length_cons, List.replicate_succ, List.cons_append,
        List.headD_cons, List.tail_cons, hcrawl, isTruthy, tierAppend]
      rw [if_neg (show ¬ (false = true) by simp), if_pos hml]
      rw [hg1, hIH]
      simp only [hg2, hsets, List.map_cons]

/-- Draining the last tier when every re-crawl fails with a falsy, non-fatal
outcome: every popped entry is permanently discarded (no escalation happens;
no tier is pushed), and the last tier is left empty. -/
theorem drainTierGo_ssl_drop (cfg : Cfg) (ml : Nat) :
    ∀ (rev : List Int) (s : CState) (os' : List Outcome),
      s.checkingSkips = true →
      s.skipped.getD ml [] = rev.reverse →
      drainTierGo cfg ml ml rev s (List.replicate rev.length .sslError ++ os') =
        ⟨{ s with skipped := s.skipped.set ml [] }, os',
         rev.map (fun u => (ml, u)), false⟩
  | [], s, os', _, hget => by
      simp only [drainTierGo, List.length_nil, List.replicate_zero, List.nil_append,
        List.map_nil, pc_set_getD _ _ _ (by simpa using hget)]
  | u :: rest, s, os', hck, hget => by
      have hcrawl : crawl cfg u Outcome.sslError
          { s with skipped := s.skipped.set ml rest.reverse }
          = ({ s with skipped := s.skipped.set ml rest.reverse },
             .ret none false, [.info]) := by
        simp [crawl, skipUrl, hck]
      have hgr : (s.skipped.set ml rest.reverse).getD ml [] = rest.reverse := by
        by_cases hl : ml < s.skipped.length
        · exact pc_getD_set_self _ _ _ _ hl
        · exfalso
          rw [pc_getD_len_le _ _ (by omega)] at hget
          simp at hget
      have hIH := drainTierGo_ssl_drop cfg ml rest
        { s with skipped := s.skipped.set ml rest.reverse } os' hck hgr
      simp only [drainTierGo, List.length_cons, List.replicate_succ, List.cons_append,
        List.headD_cons, List.tail_cons, hcrawl, isTruthy]
      rw [if_neg (show ¬ (false = true) by simp), if_neg (show ¬ (ml < ml) by omega)]
      rw [hIH, List.set_set]
      simp only [List.map_cons]

/-- A full drain pass over the default three tiers in which every re-crawl
fails (SSL errors throughout): tier 2 is discarded, tier 1 escalates into
tier 2, tier 0 escalates into tier 1, and tier 0 ends empty. -/
theorem checkSkips_ssl_three (cfg : Cfg) (i0 : Int) (urls : List Int) (c : Nat)
    (b : Bool) (t0 t1 t2 : List Int) (os' : List Outcome) :
    (checkSkips cfg ⟨i0, [t0, t1, t2], urls, c, b⟩
        (List.replicate t2.length .sslError ++
          (List.replicate t1.length .sslError ++
            (List.replicate t0.length .sslError ++ os')))).s
      = ⟨i0, [[], t0.reverse, t1.reverse], urls, c, false⟩ := by
  have h2 := drainTierGo_ssl_drop cfg 2 t2.reverse ⟨i0, [t0, t1, t2], urls, c, true⟩
    (List.replicate t1.length Outcome.sslError ++
      (List.replicate t0.length Outcome.sslError ++ os'))
    rfl (by simp)
  rw [List.length_reverse] at h2
  have h1 := drainTierGo_ssl_escalate cfg 1 2 (by omega) t1.reverse
    ⟨i0, [t0, t1, []], urls, c, true⟩
    (List.replicate t0.length Outcome.sslError ++ os')
    rfl (by simp) (by simp)
  rw [List.length_reverse] at h1
  have h0 := drainTierGo_ssl_escalate cfg 0 2 (by omega) t0.reverse
    ⟨i0, [t0, [], t1.reverse], urls, c, true⟩ os' rfl (by simp) (by simp)
  rw [List.length_reverse] at h0
  simp only [List.set_cons_succ, List.set_cons_zero, List.getD_cons_succ,
    List.getD_cons_zero, List.nil_append] at h2 h1 h0
  simp [checkSkips, drainFrom, h2, h1, h0]

/-- Any crawl can only append (at the tail) to the explicit re-queue list. -/
theorem crawl_urls (cfg : Cfg) (u : Int) (o : Outcome) (s : CState) :
    ∃ ap, (crawl cfg u o s).1.urls = s.urls ++ ap := by
  cases o <;> simp only [crawl, noSubmissionHandler, skipUrl] <;>
    (try split_ifs) <;>
    first
      | exact ⟨[u], rfl⟩
      | exact ⟨[], (List.append_nil _).symm⟩

/-- Draining one tier under any non-fatal oracle: the pass never aborts, the
re-crawl attempts are exactly the tier's entries in pop (LIFO) order, one
oracle entry is consumed per attempt, the flag stays set, the tier tuple keeps
its arity, every tier below `i` is untouched, the consecutive counter is
untouched, and the re-queue list only grows at its tail. -/
theorem drainTierGo_trace (cfg : Cfg) (i ml : Nat) :
    ∀ (rev : List Int) (s : CState) (os : List Outcome),
      s.checkingSkips = true → NF os →
      (drainTierGo cfg i ml rev s os).abort = false
      ∧ (drainTierGo cfg i ml rev s os).tr = rev.map (fun u => (i, u))
      ∧ (drainTierGo cfg i ml rev s os).os = os.drop rev.length
      ∧ (drainTierGo cfg i ml rev s os).s.checkingSkips = true
      ∧ (drainTierGo cfg i ml rev s os).s.skipped.length = s.skipped.length
      ∧ (∀ j, j < i → (drainTierGo cfg i ml rev s os).s.skipped.getD j [] =
          s.skipped.getD j [])
      ∧ (drainTierGo cfg i ml rev s os).s.consecutiveNoSubmissions =
          s.consecutiveNoSubmissions
      ∧ (∃ ap, (drainTierGo cfg i ml rev s os).s.urls = s.urls ++ ap)
  | [], s, os, hck, _ => by
      simp [drainTierGo, hck]
  | u :: rest, s, os, hck, hnf => by
      obtain ⟨v, idl, hv⟩ := crawl_ret_of_nonfatal cfg u (os.headD .ok)
        { s with skipped := s.skipped.set i rest.reverse } (pc_NF_headD hnf)
      have hfr := crawl_checking_frame cfg u (os.headD .ok)
        { s with skipped := s.skipped.set i rest.reverse } hck
      obtain ⟨ap0, hap0⟩ := crawl_urls cfg u (os.headD .ok)
        { s with skipped := s.skipped.set i rest.reverse }
      have main : ∀ s3 : CState, s3.checkingSkips = true →
          s3.skipped.length = s.skipped.length →
          (∀ j, j < i → s3.skipped.getD j [] = s.skipped.getD j []) →
          s3.consecutiveNoSubmissions = s.consecutiveNoSubmissions →
          (∃ ap, s3.urls = s.urls ++ ap) →
          (drainTierGo cfg i ml rest s3 os.tail).abort = false
          ∧ (i, u) :: (drainTierGo cfg i ml rest s3 os.tail).tr =
              (u :: rest).map (fun x => (i, x))
          ∧ (drainTierGo cfg i ml rest s3 os.tail).os = os.drop (u :: rest).length
          ∧ (drainTierGo cfg i ml rest s3 os.tail).s.checkingSkips = true
          ∧ (drainTierGo cfg i ml rest s3 os.tail).s.skipped.length = s.skipped.length
          ∧ (∀ j, j < i → (drainTierGo cfg i ml rest s3 os.tail).s.skipped.getD j [] =
              s.skipped.getD j [])
          ∧ (drainTierGo cfg i ml rest s3 os.tail).s.consecutiveNoSubmissions =
              s.consecutiveNoSubmissions
          ∧ (∃ ap, (drainTierGo cfg i ml rest s3 os.tail).s.urls = s.urls ++ ap) := by
        intro s3 h3ck h3len h3get h3c h3u
        obtain ⟨ha, htr, hos, hck', hlen, hget, hc, hu⟩ :=
          drainTierGo_trace cfg i ml rest s3 os.tail h3ck (pc_NF_tail hnf)
        refine ⟨ha, ?_, ?_, hck', ?_, ?_, ?_, ?_⟩
        · rw [htr]; rfl
        · rw [hos, ← List.drop_one, List.drop_drop, List.length_cons, Nat.add_comm]
        · rw [hlen, h3len]
        · intro j hj; rw [hget j hj, h3get j hj]
        · rw [hc, h3c]
        · obtain ⟨ap1, hap1⟩ := hu
          obtain ⟨ap2, hap2⟩ := h3u
          exact ⟨ap2 ++ ap1, by rw [hap1, hap2, List.append_assoc]⟩
      simp only [List.headD_eq_head?_getD] at hv hfr hap0
      simp only [drainTierGo, List.headD_eq_head?_getD, hv]
      refine main _ ?_ ?_ ?_ ?_ ?_
      · split_ifs <;> exact hfr.2.1
      · split_ifs <;> simp [hfr.1, tierAppend, List.length_set]
      · intro j hj
        have hne1 : i ≠ j := by omega
        have hne2 : i + 1 ≠ j := by omega
        split_ifs <;> simp [hfr.1, tierAppend, hne1, hne2]
      · split_ifs <;> exact hfr.2.2.1
      · split_ifs <;> exact ⟨ap0, hap0⟩

/-- Pointwise-equal tiers (up to index `i`) drain in the same order. -/
theorem drainOrderFrom_congr (sk1 sk2 : List (List Int)) :
    ∀ i : Nat, (∀ j, j ≤ i → sk1.getD j [] = sk2.getD j []) →
      drainOrderFrom sk1 i = drainOrderFrom sk2 i
  | 0, h => by simp only [drainOrderFrom]; rw [h 0 (by omega)]
  | i+1, h => by
      simp only [drainOrderFrom]
      rw [h (i+1) (by omega), drainOrderFrom_congr sk1 sk2 i (fun j hj => h j (by omega))]

/-- The tiers-from-`i`-down loop of a drain pass under a non-fatal oracle:
no abort, and the attempt trace is the concatenation of the tiers from `i`
down to 0, each in pop order. -/
theorem drainFrom_trace (cfg : Cfg) (ml : Nat) :
    ∀ (i : Nat) (s : CState) (os : List Outcome),
      s.checkingSkips = true → NF os →
      (drainFrom cfg ml i s os).abort = false
      ∧ (drainFrom cfg ml i s os).tr = drainOrderFrom s.skipped i
      ∧ (drainFrom cfg ml i s os).s.checkingSkips = true
      ∧ (∃ n, (drainFrom cfg ml i s os).os = os.drop n)
      ∧ (drainFrom cfg ml i s os).s.consecutiveNoSubmissions =
          s.consecutiveNoSubmissions
      ∧ (∃ ap, (drainFrom cfg ml i s os).s.urls = s.urls ++ ap)
  | 0, s, os, hck, hnf => by
      obtain ⟨ha, htr, hos, hck', _, _, hc, hu⟩ := drainTierGo_trace cfg 0 ml
        ((s.skipped.getD 0 []).reverse) s os hck hnf
      exact ⟨by simpa [drainFrom] using ha,
        by simpa [drainFrom, drainOrderFrom] using htr,
        by simpa [drainFrom] using hck',
        ⟨_, by simpa [drainFrom] using hos⟩,
        by simpa [drainFrom] using hc,
        by simpa [drainFrom] using hu⟩
  | i+1, s, os, hck, hnf => by
      obtain ⟨ha, htr, hos, hck', hlen, hget, hc, hu⟩ := drainTierGo_trace cfg (i+1) ml
        ((s.skipped.getD (i+1) []).reverse) s os hck hnf
      have hnf' : NF ((drainTierGo cfg (i+1) ml ((s.skipped.getD (i+1) []).reverse)
          s os).os) := by
        rw [hos]; exact pc_NF_drop _ hnf
      obtain ⟨ha2, htr2, hck2, hos2, hc2, hu2⟩ := drainFrom_trace cfg ml i
        ((drainTierGo cfg (i+1) ml ((s.skipped.getD (i+1) []).reverse) s os).s)
        ((drainTierGo cfg (i+1) ml ((s.skipped.getD (i+1) []).reverse) s os).os)
        hck' hnf'
      have horder : drainOrderFrom
          ((drainTierGo cfg (i+1) ml ((s.skipped.getD (i+1) []).reverse) s os).s.skipped) i
          = drainOrderFrom s.skipped i :=
        drainOrderFrom_congr _ _ i (fun j hj => hget j (by omega))
      simp only [drainFrom, ha, Bool.false_eq_true, if_false]
      refine ⟨ha2, ?_, hck2, ?_, ?_, ?_⟩
      · show (drainTierGo cfg (i+1) ml ((s.skipped.getD (i+1) []).reverse) s os).tr ++
            (drainFrom cfg ml i
              ((drainTierGo cfg (i+1) ml ((s.skipped.getD (i+1) []).reverse) s os).s)
              ((drainTierGo cfg (i+1) ml ((s.skipped.getD (i+1) []).reverse) s os).os)).tr
          = drainOrderFrom s.skipped (i+1)
        rw [htr, htr2, horder]
        simp [drainOrderFrom]
      · obtain ⟨n2, hn2⟩ := hos2
        refine ⟨n2 + (s.skipped.getD (i+1) []).reverse.length, ?_⟩
        show (drainFrom cfg ml i _ _).os = _
        rw [hn2, hos, List.drop_drop, Nat.add_comm]
      · show (drainFrom cfg ml i _ _).s.consecutiveNoSubmissions = _
        rw [hc2, hc]
      · obtain ⟨ap1, hap1⟩ := hu
        obtain ⟨ap2, hap2⟩ := hu2
        refine ⟨ap1 ++ ap2, ?_⟩
        show (drainFrom cfg ml i _ _).s.urls = _
        rw [hap2, hap1, List.append_assoc]

/-! ## Claim C5 -/

/-- C5 counterexample. The claim asserts that at every point a target occupies
at most one tier. A reachable run violating it: cursor target 100 fails with
an SSL error and lands in tier 0; the timed drain pops it and the re-crawl
answers 503, which appends 100 to the explicit re-queue list while the drain
loop escalates it into tier 1; the inline re-queue crawl of 100 then fails
with another SSL error and pushes 100 onto tier 0 again. The final state has
target 100 in tier 0 and in tier 1 simultaneously. -/
theorem c5_counterexample :
    (runMachine ⟨1, 15, none⟩ 1 ⟨100, [[], [], []], [], 0, false⟩
        [.sslError, .responseNotOk 503, .sslError] [true, false] [false]).res
      = .fuelOut ⟨101, [[100], [100], []], [], 0, false⟩ := by decide

/-- C5 (amended): during a drain pass, a target popped from tier i that fails
again is pushed onto tier i+1 when i < N-1 (first conjunct: a whole tier of
failing entries escalates, in pop order, onto the tail of tier i+1) and is
permanently discarded, with no tier receiving it, when i = N-1 (second
conjunct); composing through a full pass over the default three tiers maps
[t0, t1, t2] to [[], reverse t0, reverse t1] (third conjunct). The "at most
one tier at every point" invariant of the original claim does not hold in
general: a target re-queued onto the explicit list by a drain-pass 503 can
re-enter tier 0 while its escalated copy is still in a higher tier. -/
theorem retry_tier_escalation (cfg : Cfg) :
    (∀ (i ml : Nat) (rev : List Int) (s : CState) (os' : List Outcome),
        i < ml → s.checkingSkips = true → s.skipped.getD i [] = rev.reverse →
        i + 1 < s.skipped.length →
        drainTierGo cfg i ml rev s (List.replicate rev.length .sslError ++ os') =
          ⟨{ s with skipped :=
              (s.skipped.set i []).set (i+1) (s.skipped.getD (i+1) [] ++ rev) },
           os', rev.map (fun u => (i, u)), false⟩)
    ∧ (∀ (ml : Nat) (rev : List Int) (s : CState) (os' : List Outcome),
        s.checkingSkips = true → s.skipped.getD ml [] = rev.reverse →
        drainTierGo cfg ml ml rev s (List.replicate rev.length .sslError ++ os') =
          ⟨{ s with skipped := s.skipped.set ml [] }, os',
           rev.map (fun u => (ml, u)), false⟩)
    ∧ (∀ (i0 : Int) (urls : List Int) (c : Nat) (b : Bool) (t0 t1 t2 : List Int)
        (os' : List Outcome),
        (checkSkips cfg ⟨i0, [t0, t1, t2], urls, c, b⟩
            (List.replicate t2.length .sslError ++
              (List.replicate t1.length .sslError ++
                (List.replicate t0.length .sslError ++ os')))).s
          = ⟨i0, [[], t0.reverse, t1.reverse], urls, c, false⟩) :=
  ⟨fun i ml rev s os' h1 h2 h3 h4 =>
      drainTierGo_ssl_escalate cfg i ml h1 rev s os' h2 h3 h4,
   fun ml rev s os' h1 h2 => drainTierGo_ssl_drop cfg ml rev s os' h1 h2,
   fun i0 urls c b t0 t1 t2 os' => checkSkips_ssl_three cfg i0 urls c b t0 t1 t2 os'⟩

/-- Witness for C5: one failing entry in tier 0 of three tiers escalates into
tier 1, concretely. -/
theorem retry_tier_escalation_witness :
    drainTierGo ⟨1, 15, none⟩ 0 2 [44] ⟨9, [[44], [7], []], [], 0, true⟩
        (List.replicate 1 .sslError ++ []) =
      ⟨⟨9, [[], [7, 44], []], [], 0, true⟩, [], [(0, 44)], false⟩ := by
  have h := (retry_tier_escalation ⟨1, 15, none⟩).1 0 2 [44]
    ⟨9, [[44], [7], []], [], 0, true⟩ [] (by omega) rfl (by simp) (by simp)
  simpa using h

/-- A drain pass under a non-fatal oracle, seen from the run loop: no abort,
the oracle advances by a drop, the consecutive counter is untouched, the
re-queue list only grows at its tail, and the flag ends cleared. -/
theorem checkSkips_frame (cfg : Cfg) (s : CState) (os : List Outcome) (hnf : NF os) :
    (checkSkips cfg s os).abort = false
    ∧ (∃ n, (checkSkips cfg s os).os = os.drop n)
    ∧ (checkSkips cfg s os).s.consecutiveNoSubmissions = s.consecutiveNoSubmissions
    ∧ (∃ ap, (checkSkips cfg s os).s.urls = s.urls ++ ap)
    ∧ (checkSkips cfg s os).s.checkingSkips = false := by
  obtain ⟨ha, _, _, hos, hc, hu⟩ := drainFrom_trace cfg
    (({ s with checkingSkips := true } : CState).skipped.length - 1)
    (({ s with checkingSkips := true } : CState).skipped.length - 1)
    { s with checkingSkips := true } os rfl hnf
  refine ⟨?_, ?_, ?_, ?_, ?_⟩ <;>
    simp only [checkSkips, ha, Bool.false_eq_true, if_false] <;>
    first
      | rfl
      | exact hos
      | exact hc
      | exact hu

/-- One run-loop iteration under a non-fatal oracle: no abort, the oracle
stays non-fatal, and the re-queue list only grows at its tail. -/
theorem runIter_frame (cfg : Cfg) (u : Int) (s : CState) (os : List Outcome)
    (ds : List Bool) (hnf : NF os) :
    (runIter cfg u s os ds).abort = false
    ∧ NF (runIter cfg u s os ds).os
    ∧ (∃ ap, (runIter cfg u s os ds).s.urls = s.urls ++ ap) := by
  obtain ⟨v, idl, hv⟩ := crawl_ret_of_nonfatal cfg u (os.headD .ok) s (pc_NF_headD hnf)
  obtain ⟨ap0, hap0⟩ := crawl_urls cfg u (os.headD .ok) s
  simp only [List.headD_eq_head?_getD] at hv hap0
  simp only [runIter, List.headD_eq_head?_getD, hv]
  have hnft : NF os.tail := pc_NF_tail hnf
  generalize ht : (crawl cfg u (os.head?.getD Outcome.ok) s).1 = t1
  rw [ht] at hap0
  rcases hidl : idl with _ | _
  · rw [if_neg (show ¬ (false = true) by simp)]
    have hsu : (if isTruthy v then { t1 with consecutiveNoSubmissions := 0 } else t1).urls
        = t1.urls := by split_ifs <;> rfl
    rcases hd : ds.head?.getD false with _ | _
    · rw [if_neg (show ¬ (false = true) by simp)]
      refine ⟨rfl, hnft, ⟨ap0, ?_⟩⟩
      show (if isTruthy v then { t1 with consecutiveNoSubmissions := 0 } else t1).urls
          = s.urls ++ ap0
      rw [hsu, hap0]
    · rw [if_pos rfl]
      obtain ⟨hca, ⟨n, hcos⟩, _, ⟨ap2, hcu⟩, _⟩ := checkSkips_frame cfg
        (if isTruthy v then { t1 with consecutiveNoSubmissions := 0 } else t1) os.tail hnft
      refine ⟨hca, ?_, ⟨ap0 ++ ap2, ?_⟩⟩
      · show NF (checkSkips cfg
            (if isTruthy v then { t1 with consecutiveNoSubmissions := 0 } else t1) os.tail).os
        rw [hcos]; exact pc_NF_drop _ hnft
      · show (checkSkips cfg
            (if isTruthy v then { t1 with consecutiveNoSubmissions := 0 } else t1)
            os.tail).s.urls = s.urls ++ (ap0 ++ ap2)
        rw [hcu, hsu, hap0, List.append_assoc]
  · rw [if_pos rfl]
    obtain ⟨hca, ⟨n, hcos⟩, _, ⟨ap1, hcu⟩, _⟩ := checkSkips_frame cfg t1 os.tail hnft
    have hnf1 : NF (checkSkips cfg t1 os.tail).os := by
      rw [hcos]; exact pc_NF_drop _ hnft
    rw [if_neg (show ¬ ((checkSkips cfg t1 os.tail).abort = true) by rw [hca]; simp)]
    have hsu : (if isTruthy v
          then { (checkSkips cfg t1 os.tail).s with consecutiveNoSubmissions := 0 }
          else (checkSkips cfg t1 os.tail).s).urls
        = (checkSkips cfg t1 os.tail).s.urls := by split_ifs <;> rfl
    rcases hd : ds.head?.getD false with _ | _
    · rw [if_neg (show ¬ (false = true) by simp)]
      refine ⟨rfl, hnf1, ⟨ap0 ++ ap1, ?_⟩⟩
      show (if isTruthy v
            then { (checkSkips cfg t1 os.tail).s with consecutiveNoSubmissions := 0 }
            else (checkSkips cfg t1 os.tail).s).urls = s.urls ++ (ap0 ++ ap1)
      rw [hsu, hcu, hap0, List.append_assoc]
    · rw [if_pos rfl]
      obtain ⟨hca2, ⟨n2, hcos2⟩, _, ⟨ap2, hcu2⟩, _⟩ := checkSkips_frame cfg
        (if isTruthy v
          then { (checkSkips cfg t1 os.tail).s with consecutiveNoSubmissions := 0 }
          else (checkSkips cfg t1 os.tail).s)
        (checkSkips cfg t1 os.tail).os hnf1
      refine ⟨hca2, ?_, ⟨ap0 ++ (ap1 ++ ap2), ?_⟩⟩
      · show NF (checkSkips cfg
            (if isTruthy v
              then { (checkSkips cfg t1 os.tail).s with consecutiveNoSubmissions := 0 }
              else (checkSkips cfg t1 os.tail).s)
            (checkSkips cfg t1 os.tail).os).os
        rw [hcos2]; exact pc_NF_drop _ hnf1
      · show (checkSkips cfg
            (if isTruthy v
              then { (checkSkips cfg t1 os.tail).s with consecutiveNoSubmissions := 0 }
              else (checkSkips cfg t1 os.tail).s)
            (checkSkips cfg t1 os.tail).os).s.urls = s.urls ++ (ap0 ++ (ap1 ++ ap2))
        rw [hcu2, hsu, hcu, hap0, List.append_assoc, List.append_assoc]

/-- The inline re-queue drain of the sequencer, under a non-fatal oracle: it
never aborts, and it yields exactly the first `k` entries of the re-queue
list, in FIFO order, regardless of what the crawls append behind them. -/
theorem requeueGo_trace (cfg : Cfg) :
    ∀ (k : Nat) (s : CState) (os : List Outcome) (ds : List Bool),
      NF os → k ≤ s.urls.length →
      (requeueGo cfg k s os ds).abort = false
      ∧ (requeueGo cfg k s os ds).tr = (s.urls.take k).map Ev.url
      ∧ NF (requeueGo cfg k s os ds).os
  | 0, s, os, ds, hnf, _ => by simp [requeueGo, hnf]
  | k+1, s, os, ds, hnf, hk => by
      rcases hu : s.urls with _ | ⟨u, rest⟩
      · rw [hu] at hk; simp at hk
      · obtain ⟨hra, hrnf, ap, hap⟩ := runIter_frame cfg u { s with urls := rest } os ds hnf
        have hrest : k ≤ rest.length := by rw [hu] at hk; simpa using hk
        have hk' : k ≤ (runIter cfg u { s with urls := rest } os ds).s.urls.length := by
          rw [hap]; simp only [List.length_append]
          have : ({ s with urls := rest } : CState).urls.length = rest.length := rfl
          omega
        obtain ⟨ha2, htr2, hnf2⟩ := requeueGo_trace cfg k
          (runIter cfg u { s with urls := rest } os ds).s
          (runIter cfg u { s with urls := rest } os ds).os
          (runIter cfg u { s with urls := rest } os ds).ds hrnf hk'
        have htk : (runIter cfg u { s with urls := rest } os ds).s.urls.take k
            = rest.take k := by
          rw [hap]
          exact List.take_append_of_le_length hrest
        simp only [requeueGo, hu, hra, Bool.false_eq_true, if_false]
        refine ⟨ha2, ?_, hnf2⟩
        show Ev.url u :: (requeueGo cfg k _ _ _).tr = _
        rw [htr2, htk, List.take_succ_cons, List.map_cons]

theorem pc_take_cons_append (a : Ev) (l1 l2 : List Ev) :
    (a :: (l1 ++ l2)).take (1 + l1.length) = a :: l1 := by
  rw [Nat.add_comm, List.take_succ_cons, List.take_left]

/-- Tier-less drain loop: with every tier empty, drainFrom is a no-op. -/
theorem drainFrom_empty (cfg : Cfg) (ml n : Nat) :
    ∀ (i : Nat) (s : CState) (os : List Outcome), s.skipped = List.replicate n [] →
      drainFrom cfg ml i s os = ⟨s, os, [], false⟩
  | 0, s, os, h => by
      simp [drainFrom, h, pc_getD_replicate, drainTierGo]
  | i+1, s, os, h => by
      have h1 : drainTierGo cfg (i+1) ml ((s.skipped.getD (i+1) []).reverse) s os
          = ⟨s, os, [], false⟩ := by
        rw [h, pc_getD_replicate]; rfl
      simp only [drainFrom]
      rw [h1]
      simp [drainFrom_empty cfg ml n i s os h]

/-- With every tier empty, a drain pass changes nothing and consumes nothing. -/
theorem checkSkips_empty (cfg : Cfg) (n : Nat) (s : CState) (os : List Outcome)
    (h : s.skipped = List.replicate n []) (hck : s.checkingSkips = false) :
    checkSkips cfg s os = ⟨s, os, [], false⟩ := by
  have h1 : ({ s with checkingSkips := true } : CState).skipped = List.replicate n [] := h
  have h2 := drainFrom_empty cfg
    (({ s with checkingSkips := true } : CState).skipped.length - 1) n
    (({ s with checkingSkips := true } : CState).skipped.length - 1)
    { s with checkingSkips := true } os h1
  have h3 : ({ ({ s with checkingSkips := true } : CState) with checkingSkips := false }
      : CState) = s := by
    cases s
    simp_all
  simp only [checkSkips, h2, Bool.false_eq_true, if_false, h3]

/-- If a crawl asks for an idle drain, its returned value was False. -/
theorem crawl_idle_value (cfg : Cfg) (u : Int) (o : Outcome) (s : CState) (v : Option Bool) :
    (crawl cfg u o s).2.1 = CrawlRes.ret v true → v = some false := by
  cases o <;> simp [crawl, noSubmissionHandler, skipUrl] <;> split_ifs <;> simp <;>
    (intro h; exact h.symm)

/-- A non-rewind no-content iteration of the run loop with no timed drain:
push the target onto tier 0 and bump the counter; nothing else changes. -/
theorem runIter_noSub_step (cfg : Cfg) (u idv : Int) (t0 : List Int) (n c : Nat)
    (os' : List Outcome) (hd : 0 < cfg.direction) (hlt : c + 1 < cfg.skipMax) :
    runIter cfg u ⟨idv, t0 :: List.replicate n [], [], c, false⟩ (.noSubmission :: os') []
      = ⟨⟨idv, (t0 ++ [u]) :: List.replicate n [], [], c + 1, false⟩, os', [], false⟩ := by
  simp only [runIter, List.headD_cons, crawl, noSubmissionHandler, skipUrl,
    Bool.false_eq_true, if_false, tierAppend, List.getD_cons_zero, List.set_cons_zero]
  rw [if_pos (show cfg.direction > 0 ∧ True from ⟨hd, trivial⟩), if_neg (by omega)]
  simp [isTruthy]

/-- The rewind iteration: the skipMax-th consecutive no-content outcome (with
tier 0 holding exactly the counter's worth of entries and every other tier
empty) deletes the freshly pushed entries, rewinds the cursor by
(counter+1) x direction, resets the counter, and runs an (empty) idle drain. -/
theorem runIter_noSub_rewind (cfg : Cfg) (u : Int) (idv : Int) (t0 : List Int)
    (n c : Nat) (os' : List Outcome) (hd : 0 < cfg.direction) (hlen : t0.length = c)
    (hge : cfg.skipMax ≤ c + 1) :
    runIter cfg u ⟨idv, t0 :: List.replicate n [], [], c, false⟩ (.noSubmission :: os') []
      = ⟨⟨idv - ((c : Int) + 1) * cfg.direction, [] :: List.replicate n [], [], 0, false⟩,
         os', [], false⟩ := by
  have hset : tierAppend (t0 :: List.replicate n []) 0 u = (t0 ++ [u]) :: List.replicate n [] := by
    simp [tierAppend]
  have hemp := checkSkips_empty cfg (n+1)
    ⟨idv - ((c + 1 : Nat) : Int) * cfg.direction, [] :: List.replicate n [], [], 0, false⟩
    os' (by simp [List.replicate_succ]) rfl
  simp only [runIter, List.headD_cons, crawl, noSubmissionHandler, skipUrl,
    Bool.false_eq_true, if_false]
  rw [if_pos (show cfg.direction > 0 ∧ True from ⟨hd, trivial⟩)]
  rw [if_pos (show cfg.skipMax ≤ c + 1 from hge)]
  simp only [hset, List.getD_cons_zero, List.length_append, hlen, List.length_cons,
    List.length_nil, Nat.zero_add, Nat.sub_self, List.take_zero, List.set_cons_zero,
    List.tail_cons]
  rw [if_pos trivial]
  rw [hemp]
  simp [isTruthy]

/-- One-step unfolding of `runCursor` on positive fuel. -/
theorem runCursor_succ (cfg : Cfg) (fuel : Nat) (s : CState) (os : List Outcome)
    (ds fs : List Bool) :
    runCursor cfg (fuel+1) s os ds fs =
      (if doneP cfg s.id (fs.headD false) then ⟨.halted s, []⟩
      else
        let r := runIter cfg s.id s os ds
        if r.abort then ⟨.aborted r.s, [.cursor s.id]⟩
        else
          let s1 := { r.s with id := r.s.id + cfg.direction }
          let q := requeueGo cfg s1.urls.length s1 r.os r.ds
          if q.abort then ⟨.aborted q.s, .cursor s.id :: q.tr⟩
          else
            let c := runCursor cfg fuel q.s q.os q.ds fs.tail
            ⟨c.res, .cursor s.id :: (q.tr ++ c.tr)⟩) := rfl

/-- Chained no-content iterations: from counter j with tier 0 holding the j
matching targets, running the remaining skipMax - j iterations ends with the
cursor rewound to the start, the counter at 0, and tier 0 emptied. -/
theorem runCursor_noSub_chain (cfg : Cfg) (n : Nat) (i0 : Int) (hd : 0 < cfg.direction)
    (hend : cfg.endingid = none) :
    ∀ (k j : Nat), 1 ≤ k → j + k = cfg.skipMax →
      runCursor cfg k
        ⟨i0 + (j : Int) * cfg.direction,
         ((List.range j).map (fun t : Nat => i0 + (t : Int) * cfg.direction))
           :: List.replicate n [],
         [], j, false⟩
        (List.replicate k .noSubmission) [] []
      = ⟨.fuelOut ⟨i0, [] :: List.replicate n [], [], 0, false⟩,
         (List.range k).map
           (fun t : Nat => Ev.cursor (i0 + ((j + t : Nat) : Int) * cfg.direction))⟩
  | 0, j, hk, _ => absurd hk (by omega)
  | 1, j, _, hjk => by
      have hri := runIter_noSub_rewind cfg (i0 + (j : Int) * cfg.direction)
        (i0 + (j : Int) * cfg.direction)
        ((List.range j).map (fun t : Nat => i0 + (t : Int) * cfg.direction)) n j []
        hd (by simp) (by omega)
      simp only [List.replicate_succ, List.replicate_zero]
      simp only [runCursor, doneP, hend, List.headD_nil, Bool.false_eq_true, if_false,
        hri]
      simp only [requeueGo, List.length_nil, List.append_nil, List.nil_append,
        Bool.false_eq_true, if_false]
      simp only [RunOut.mk.injEq, RunRes.fuelOut.injEq, CState.mk.injEq]
      refine ⟨⟨by ring, trivial, trivial, trivial, trivial⟩, ?_⟩
      simp [List.range_succ]
  | k+2, j, _, hjk => by
      have hri := runIter_noSub_step cfg (i0 + (j : Int) * cfg.direction)
        (i0 + (j : Int) * cfg.direction)
        ((List.range j).map (fun t : Nat => i0 + (t : Int) * cfg.direction)) n j
        (List.replicate (k+1) .noSubmission) hd (by omega)
      have happ : ((List.range j).map (fun t : Nat => i0 + (t : Int) * cfg.direction))
          ++ [i0 + (j : Int) * cfg.direction]
          = (List.range (j+1)).map (fun t : Nat => i0 + (t : Int) * cfg.direction) := by
        simp [List.range_succ]
      have hIH := runCursor_noSub_chain cfg n i0 hd hend (k+1) (j+1) (by omega) (by omega)
      have hid : i0 + (j : Int) * cfg.direction + cfg.direction
          = i0 + ((j+1 : Nat) : Int) * cfg.direction := by
        push_cast
        ring
      rw [← hid] at hIH
      rw [show List.replicate (k+2) Outcome.noSubmission
          = Outcome.noSubmission :: List.replicate (k+1) Outcome.noSubmission from rfl]
      rw [runCursor_succ]
      simp only [doneP, hend, List.headD_nil, Bool.false_eq_true, if_false, hri, happ]
      simp only [requeueGo, List.length_nil, List.tail_nil, Bool.false_eq_true, if_false]
      rw [hIH]
      simp only [RunOut.mk.injEq, List.nil_append]
      refine ⟨trivial, ?_⟩
      conv_rhs => rw [List.range_succ_eq_map, List.map_cons, List.map_map]
      refine congrArg₂ List.cons (by norm_num) ?_
      refine congrArg₂ List.map ?_ rfl
      funext t
      show Ev.cursor (i0 + ((j + 1 + t : Nat) : Int) * cfg.direction)
      = Ev.cursor (i0 + ((j + (t + 1) : Nat) : Int) * cfg.direction)
      have : ((j + 1 + t : Nat) : Int) = ((j + (t + 1) : Nat) : Int) := by omega
      rw [this]

/-- Any iteration of the run loop whose crawl returns a truthy value resets
the consecutive-no-content counter to zero, whatever else happens. -/
theorem runIter_truthy_reset (cfg : Cfg) (u : Int) (s : CState) (os : List Outcome)
    (ds : List Bool) (hnf : NF os)
    (ht : resTruthy (crawl cfg u (os.headD .ok) s).2.1 = true) :
    (runIter cfg u s os ds).s.consecutiveNoSubmissions = 0 := by
  obtain ⟨v, idl, hv⟩ := crawl_ret_of_nonfatal cfg u (os.headD .ok) s (pc_NF_headD hnf)
  rw [hv] at ht
  have hvt : isTruthy v = true := ht
  have hnft : NF os.tail := pc_NF_tail hnf
  rcases hidl : idl with _ | _
  · subst hidl
    simp only [List.headD_eq_head?_getD] at hv
    simp only [runIter, List.headD_eq_head?_getD, hv]
    rw [if_neg (show ¬ (false = true) by simp)]
    generalize htg : (crawl cfg u (os.head?.getD Outcome.ok) s).1 = t1
    simp only [hvt, if_true]
    rcases hd : ds.head?.getD false with _ | _
    · rw [if_neg (show ¬ (false = true) by simp)]
    · rw [if_pos rfl]
      obtain ⟨_, _, hcc, _, _⟩ := checkSkips_frame cfg
        { t1 with consecutiveNoSubmissions := 0 } os.tail hnft
      exact hcc
  · subst hidl
    have hvf := crawl_idle_value cfg u (os.headD .ok) s v hv
    subst hvf
    simp [isTruthy] at hvt

/-! ## Claim C4 -/

/-- C4: during forward crawling outside a drain pass (positive direction, no
ending bound, empty tiers, counter 0), a run of exactly skipMax consecutive
no-content outcomes visits the cursor values start, start + step, ...,
start + (skipMax - 1) * step and ends with the cursor rewound by exactly
skipMax * step - back to the start value - the consecutive-empty counter
reset to 0, and tier 0 emptied of all the rewound targets; and on any crawl
returning a truthy value the iteration resets the counter to 0. -/
theorem idle_backoff_rewind (cfg : Cfg) (n : Nat) (i0 : Int)
    (hd : 0 < cfg.direction) (hend : cfg.endingid = none) (hsk : 1 ≤ cfg.skipMax) :
    (runCursor cfg cfg.skipMax ⟨i0, List.replicate (n+1) [], [], 0, false⟩
        (List.replicate cfg.skipMax .noSubmission) [] []
      = ⟨.fuelOut ⟨i0, [] :: List.replicate n [], [], 0, false⟩,
         (List.range cfg.skipMax).map
           (fun t : Nat => Ev.cursor (i0 + (t : Int) * cfg.direction))⟩)
    ∧ (∀ (u : Int) (s : CState) (os : List Outcome) (ds : List Bool), NF os →
        resTruthy (crawl cfg u (os.headD .ok) s).2.1 = true →
        (runIter cfg u s os ds).s.consecutiveNoSubmissions = 0) := by
  constructor
  · have h := runCursor_noSub_chain cfg n i0 hd hend cfg.skipMax 0 hsk (by omega)
    simpa [List.replicate_succ] using h
  · intro u s os ds hnf ht
    exact runIter_truthy_reset cfg u s os ds hnf ht

theorem idle_backoff_rewind_witness :
    (runCursor ⟨1, 2, none⟩ 2 ⟨5, List.replicate 2 [], [], 0, false⟩
        (List.replicate 2 .noSubmission) [] []
      = ⟨.fuelOut ⟨5, [] :: List.replicate 1 [], [], 0, false⟩,
         (List.range 2).map (fun t : Nat => Ev.cursor (5 + (t : Int) * 1))⟩)
    ∧ (0 : Int) < 1 ∧ 1 ≤ 2 :=
  ⟨(idle_backoff_rewind ⟨1, 2, none⟩ 1 5 (by decide) rfl (by decide)).1,
   by decide, by decide⟩

/-! ## Claim C8 -/

/-- C8: in cursor mode, whenever the done poll allows another iteration and
the oracle is non-fatal, the machine's yield trace begins with the cursor
value followed immediately by one url yield for every entry of the re-queue
list as it stands right after the cursor value's crawl (and timed drain) -
everything re-queued during that crawl, 503s included, is yielded fully before
the next cursor value is produced. -/
theorem requeue_before_next_cursor (cfg : Cfg) (s : CState) (os : List Outcome)
    (ds fs : List Bool) (fuel : Nat) (hnf : NF os)
    (hdone : doneP cfg s.id (fs.headD false) = false) :
    (runCursor cfg (fuel+1) s os ds fs).tr.take
        (1 + (runIter cfg s.id s os ds).s.urls.length)
      = Ev.cursor s.id :: ((runIter cfg s.id s os ds).s.urls.map Ev.url) := by
  obtain ⟨hra, hrnf, _⟩ := runIter_frame cfg s.id s os ds hnf
  simp only [List.headD_eq_head?_getD] at hdone
  simp only [runCursor, List.headD_eq_head?_getD, hdone, Bool.false_eq_true, if_false,
    hra]
  obtain ⟨hqa, hqtr, _⟩ := requeueGo_trace cfg
    ({ (runIter cfg s.id s os ds).s with
        id := (runIter cfg s.id s os ds).s.id + cfg.direction } : CState).urls.length
    { (runIter cfg s.id s os ds).s with
        id := (runIter cfg s.id s os ds).s.id + cfg.direction }
    (runIter cfg s.id s os ds).os (runIter cfg s.id s os ds).ds hrnf (Nat.le_refl _)
  have hqtr2 : (requeueGo cfg
      ({ (runIter cfg s.id s os ds).s with
          id := (runIter cfg s.id s os ds).s.id + cfg.direction } : CState).urls.length
      { (runIter cfg s.id s os ds).s with
          id := (runIter cfg s.id s os ds).s.id + cfg.direction }
      (runIter cfg s.id s os ds).os (runIter cfg s.id s os ds).ds).tr
      = (runIter cfg s.id s os ds).s.urls.map Ev.url := by
    rw [hqtr, List.take_length]
  simp only [hqa, Bool.false_eq_true, if_false]
  show (Ev.cursor s.id :: ((requeueGo cfg _ _ _ _).tr ++ (runCursor cfg fuel _ _ _ _).tr)).take
      (1 + (runIter cfg s.id s os ds).s.urls.length) = _
  rw [hqtr2, show (1 + (runIter cfg s.id s os ds).s.urls.length)
      = 1 + ((runIter cfg s.id s os ds).s.urls.map Ev.url).length by rw [List.length_map],
    pc_take_cons_append]

/-- Witness for C8 mirroring Scenario B: the crawl of cursor value 101 gets a
503, so 101 is re-queued and yielded again before cursor value 102. -/
theorem requeue_before_next_cursor_witness :
    (runCursor ⟨1, 15, none⟩ 3 ⟨101, [[], [], []], [], 0, false⟩
        [.responseNotOk 503] [] []).tr.take
        (1 + (runIter ⟨1, 15, none⟩ 101 ⟨101, [[], [], []], [], 0, false⟩
          [.responseNotOk 503] []).s.urls.length)
      = Ev.cursor 101 :: ((runIter ⟨1, 15, none⟩ 101 ⟨101, [[], [], []], [], 0, false⟩
          [.responseNotOk 503] []).s.urls.map Ev.url) :=
  requeue_before_next_cursor ⟨1, 15, none⟩ ⟨101, [[], [], []], [], 0, false⟩
    [.responseNotOk 503] [] [] 2 (by simp [NF, Fatal]) (by decide)

/-! ## Claim C6 -/

/-- C6: under any non-fatal oracle a drain pass never aborts and its re-crawl
attempts are exactly `drainOrderFrom`: the tiers from index N-1 down to 0,
each popped LIFO until empty. Every pending entry is attempted exactly once,
so an entry escalated into a higher tier during the pass is never re-attempted
in the same pass (the higher tier was already processed). The final conjunct:
a failure recorded while the drain flag is set never pushes the target onto
tier 0 (`crawl` leaves the tiers entirely unchanged during a drain). -/
theorem drain_pass_order (cfg : Cfg) (s : CState) (os : List Outcome) (hnf : NF os) :
    (checkSkips cfg s os).abort = false
    ∧ (checkSkips cfg s os).tr = drainOrderFrom s.skipped (s.skipped.length - 1)
    ∧ (∀ (u : Int) (o : Outcome) (s' : CState), s'.checkingSkips = true →
        (crawl cfg u o s').1.skipped = s'.skipped) := by
  obtain ⟨ha, htr, _⟩ := drainFrom_trace cfg
    (({ s with checkingSkips := true } : CState).skipped.length - 1)
    (({ s with checkingSkips := true } : CState).skipped.length - 1)
    { s with checkingSkips := true } os rfl hnf
  refine ⟨?_, ?_, fun u o s' h' => (crawl_checking_frame cfg u o s' h').1⟩
  · simp only [checkSkips, ha, Bool.false_eq_true, if_false]
  · simp only [checkSkips, ha, Bool.false_eq_true, if_false]
    exact htr

/-- Witness for C6 on a concrete three-tier state: the drain attempts tier 2
first (LIFO), then tier 1, then tier 0, and does not abort. -/
theorem drain_pass_order_witness :
    (checkSkips ⟨1, 15, none⟩ ⟨0, [[1, 2], [3], [4, 5]], [], 0, false⟩
        (List.replicate 5 .sslError)).abort = false
    ∧ (checkSkips ⟨1, 15, none⟩ ⟨0, [[1, 2], [3], [4, 5]], [], 0, false⟩
        (List.replicate 5 .sslError)).tr = [(2, 5), (2, 4), (1, 3), (0, 2), (0, 1)] := by
  have h := drain_pass_order ⟨1, 15, none⟩ ⟨0, [[1, 2], [3], [4, 5]], [], 0, false⟩
    (List.replicate 5 .sslError) (by simp [NF, Fatal])
  exact ⟨h.1, by rw [h.2.1]; decide⟩

/-! ## Claim C1 -/

/-- C1 counterexample. The claim states that `crawl` returns true on a 503
failure (the target being re-queued by policy). In the code the 503 branch of
the `except ResponseNotOk` clause appends the target to `self.urls` and then
falls off the end of the function, so `crawl` returns None, which is falsy:
the claimed return contract is false at status 503. -/
theorem c1_counterexample :
    resTruthy (crawl ⟨1, 15, none⟩ 101 (.responseNotOk 503)
      ⟨100, [[], [], []], [], 0, false⟩).2.1 = false := by decide

/-- C1 (amended): the value returned by `crawl` is truthy exactly when the
session reached Done (`ok`), failed with non-indexable content
(`invalidSubmission`), or failed with no-content while a drain pass was in
progress or while not crawling forward. A 503 or a no-response (-1) failure
re-queues the target onto the explicit list and returns None, which is falsy,
as does every outcome whose handler pushed the target into the retry tiers. -/
theorem crawl_return_contract (cfg : Cfg) (u : Int) (o : Outcome) (s : CState) :
    (resTruthy (crawl cfg u o s).2.1 = true ↔
      (o = .ok ∨ o = .invalidSubmission ∨
        (o = .noSubmission ∧ (cfg.direction ≤ 0 ∨ s.checkingSkips = true))))
    ∧ crawl cfg u (.responseNotOk 503) s
        = ({ s with urls := s.urls ++ [u] }, .ret none false, [])
    ∧ crawl cfg u (.responseNotOk (-1)) s
        = ({ s with urls := s.urls ++ [u] }, .ret none false, []) := by
  refine ⟨?_, by simp [crawl], by simp [crawl]⟩
  cases o with
  | noSubmission =>
      simp only [crawl, noSubmissionHandler]
      by_cases hd : cfg.direction > 0 ∧ s.checkingSkips = false
      · rcases hd with ⟨hd1, hd2⟩
        rw [if_pos ⟨hd1, hd2⟩]
        split_ifs <;> simp [resTruthy, isTruthy, hd2] <;> omega
      · rw [if_neg hd]
        simp only [resTruthy, isTruthy, true_iff]
        simp only [reduceCtorEq, false_or, true_and]
        by_cases h1 : cfg.direction ≤ 0
        · exact Or.inl h1
        · refine Or.inr ?_
          cases hcb : s.checkingSkips
          · exact absurd ⟨by omega, hcb⟩ hd
          · rfl
  | responseNotOk status =>
      simp only [crawl]
      split_ifs <;> simp [resTruthy, isTruthy]
  | _ => simp [crawl, resTruthy, isTruthy]

/-! ## Claim C2 -/

/-- C2 counterexample. The claim states that a not-ok response with an
unrecognized hundred-bucket (here status 300) is handled by the 0xx policy:
pushed onto retry tier 0 with an error-level log. In the code the
`elif hundredcode in self.responseNotOkHandlers` guard simply fails for an
unrecognized bucket, so nothing happens: tier 0 stays empty and no log record
of any level is emitted. -/
theorem c2_counterexample :
    (crawl ⟨1, 15, none⟩ 7 (.responseNotOk 300) ⟨5, [[], [], []], [], 0, false⟩).1.skipped
        = [[], [], []]
    ∧ (crawl ⟨1, 15, none⟩ 7 (.responseNotOk 300) ⟨5, [[], [], []], [], 0, false⟩).2.2
        = [] := by decide

/-- C2 (amended): a not-ok response whose status is not 503 or -1 and whose
hundred-bucket is not one of the recognized ones (0, 400, 500) is silently
dropped: no handler runs, the state (in particular every retry tier) is left
unchanged, no log is emitted, and `crawl` returns None. -/
theorem crawl_unrecognized_bucket (cfg : Cfg) (u : Int) (s : CState) (status : Int)
    (h503 : status ≠ 503) (hm1 : status ≠ -1)
    (h0 : hundredBucket status ≠ 0) (h4 : hundredBucket status ≠ 400)
    (h5 : hundredBucket status ≠ 500) :
    crawl cfg u (.responseNotOk status) s = (s, .ret none false, []) := by
  simp [crawl, h503, hm1, h0, h4, h5]

/-- Witness for C2 at status 204 (bucket 200, unrecognized). -/
theorem crawl_unrecognized_bucket_witness :
    crawl ⟨1, 15, none⟩ 7 (.responseNotOk 204) ⟨5, [[], [], []], [], 0, false⟩
      = (⟨5, [[], [], []], [], 0, false⟩, .ret none false, []) :=
  crawl_unrecognized_bucket _ _ _ _ (by decide) (by decide) (by decide) (by decide)
    (by decide)

/-! ## Claim C3 -/

/-- C3 counterexample. The claim states that when the first two publish
attempts fail and the third succeeds, exactly one reconnect occurs. In
`Crawler._send` every caught connection-state error runs `self._mq_connect()`
before the next loop iteration, so two failed attempts mean two reconnects. -/
theorem c3_counterexample : sendMessage [false, false, true] = (some 3, 2) := by decide

/-- C3 (amended): with the first two attempts failing and the third
succeeding, publish delivers on the 3rd attempt after exactly two reconnects
(one per failed attempt); with three consecutive failures, publish performs
three reconnects, delivers nothing, and returns without raising (the loop
simply ends: the message is dropped and never retried). -/
theorem sendMessage_retry (rest rest' : List Bool) :
    sendMessage (false :: false :: true :: rest) = (some 3, 2)
    ∧ sendMessage (false :: false :: false :: rest') = (none, 3) :=
  ⟨rfl, rfl⟩

/-! ## Claim C10 -/

/-- C10: a no-content outcome while a drain pass is in progress, or while the
direction of travel is backward, makes `crawl` return True with the state
fully unchanged (no tier push, counter and cursor untouched); and inside a
drain pass the popped target is simply discarded: the drain step neither
escalates it nor re-queues it in any tier. -/
theorem noContent_drain_backward (cfg : Cfg) (u : Int) (s : CState)
    (h : s.checkingSkips = true ∨ cfg.direction < 0) :
    crawl cfg u .noSubmission s = (s, .ret (some true) false, [])
    ∧ (s.checkingSkips = true → ∀ i ml rest os,
        drainTierGo cfg i ml (u :: rest) s (.noSubmission :: os) =
          (let s1 := { s with skipped := s.skipped.set i rest.reverse }
           let r := drainTierGo cfg i ml rest s1 os
           ⟨r.s, r.os, (i, u) :: r.tr, r.abort⟩)) := by
  have hc : ∀ s' : CState, s'.checkingSkips = true ∨ cfg.direction < 0 →
      crawl cfg u .noSubmission s' = (s', .ret (some true) false, []) := by
    intro s' h'
    rcases h' with h' | h'
    · simp [crawl, noSubmissionHandler, h']
    · have : ¬ cfg.direction > 0 := by omega
      simp [crawl, noSubmissionHandler, this]
  refine ⟨hc s h, fun hck i ml rest os => ?_⟩
  have hcr := hc { s with skipped := s.skipped.set i rest.reverse } (Or.inl hck)
  simp [drainTierGo, hcr, isTruthy]

/-- Witness for C10: a no-content outcome during a drain pass, concretely. -/
theorem noContent_drain_backward_witness :
    crawl ⟨1, 15, none⟩ 9 .noSubmission ⟨0, [[], [], []], [], 3, true⟩
      = (⟨0, [[], [], []], [], 3, true⟩, .ret (some true) false, []) :=
  (noContent_drain_backward ⟨1, 15, none⟩ 9 ⟨0, [[], [], []], [], 3, true⟩
    (Or.inl rfl)).1


/-! ## Claim C7 -/

/-- One-step unfolding of `runCursor` on positive fuel, with the step's
re-queue drain named by `stepQ` instead of `let`s. -/
theorem runCursor_succ_exp (cfg : Cfg) (fuel : Nat) (s : CState) (os : List Outcome)
    (ds fs : List Bool) :
    runCursor cfg (fuel+1) s os ds fs =
      (if doneP cfg s.id (fs.headD false) then ⟨.halted s, []⟩
       else if (runIter cfg s.id s os ds).abort then
         ⟨.aborted (runIter cfg s.id s os ds).s, [.cursor s.id]⟩
       else if (stepQ cfg s os ds).abort then
         ⟨.aborted (stepQ cfg s os ds).s, .cursor s.id :: (stepQ cfg s os ds).tr⟩
       else
         ⟨(runCursor cfg fuel (stepQ cfg s os ds).s (stepQ cfg s os ds).os
             (stepQ cfg s os ds).ds fs.tail).res,
          .cursor s.id :: ((stepQ cfg s os ds).tr
            ++ (runCursor cfg fuel (stepQ cfg s os ds).s (stepQ cfg s os ds).os
                  (stepQ cfg s os ds).ds fs.tail).tr)⟩) := rfl

/-- The inner re-queue drain of the sequencer only ever yields url events,
never a cursor value. -/
theorem requeueGo_no_cursor (cfg : Cfg) (v : Int) :
    ∀ (k : Nat) (s : CState) (os : List Outcome) (ds : List Bool),
      Ev.cursor v ∉ (requeueGo cfg k s os ds).tr
  | 0, s, os, ds => by
      intro hv
      exact absurd hv (List.not_mem_nil _)
  | k+1, s, os, ds => by
      intro hv
      rcases hu : s.urls with _ | ⟨u, rest⟩
      · simp only [requeueGo, hu] at hv
        exact absurd hv (List.not_mem_nil _)
      · simp only [requeueGo, hu] at hv
        by_cases hra : (runIter cfg u { s with urls := rest } os ds).abort = true
        · rw [if_pos hra] at hv
          have hv2 : Ev.cursor v ∈ [Ev.url u] := hv
          simp at hv2
        · rw [if_neg hra] at hv
          have hv2 : Ev.cursor v ∈ Ev.url u ::
              (requeueGo cfg k (runIter cfg u { s with urls := rest } os ds).s
                (runIter cfg u { s with urls := rest } os ds).os
                (runIter cfg u { s with urls := rest } os ds).ds).tr := hv
          rcases List.mem_cons.mp hv2 with h | h
          · simp at h
          · exact absurd h (requeueGo_no_cursor cfg v k _ _ _)

/-- The advance-and-requeue step of a cursor iteration yields no cursor
event. -/
theorem stepQ_no_cursor (cfg : Cfg) (v : Int) (s : CState) (os : List Outcome)
    (ds : List Bool) : Ev.cursor v ∉ (stepQ cfg s os ds).tr :=
  requeueGo_no_cursor cfg v _ _ _ _

/-- With positive fuel and the done predicate satisfied at the poll, the
sequencer halts on the spot yielding nothing. -/
theorem runCursor_done_halt (cfg : Cfg) (fuel : Nat) (s : CState) (os : List Outcome)
    (ds fs : List Bool) (h0 : 0 < fuel) (hdp : doneP cfg s.id (fs.headD false) = true) :
    runCursor cfg fuel s os ds fs = ⟨.halted s, []⟩ := by
  rcases fuel with _ | fuel
  · omega
  · rw [runCursor_succ, if_pos hdp]

/-- Every cursor value yielded by the sequencer under an ending bound lies on
the start side of the bound: at or below it crawling forward, at or above it
crawling backward. -/
theorem runCursor_cursor_bound (cfg : Cfg) (e : Int) (hend : cfg.endingid = some e) :
    ∀ (fuel : Nat) (s : CState) (os : List Outcome) (ds fs : List Bool) (v : Int),
      Ev.cursor v ∈ (runCursor cfg fuel s os ds fs).tr →
      (if cfg.direction > 0 then v ≤ e else e ≤ v)
  | 0, s, os, ds, fs, v => by
      intro hv
      exact absurd hv (List.not_mem_nil _)
  | fuel+1, s, os, ds, fs, v => by
      intro hv
      rw [runCursor_succ_exp] at hv
      by_cases hdp : doneP cfg s.id (fs.headD false) = true
      · rw [if_pos hdp] at hv
        exact absurd hv (List.not_mem_nil _)
      · simp only [Bool.not_eq_true] at hdp
        rw [if_neg (show ¬ (doneP cfg s.id (fs.headD false) = true) by rw [hdp]; simp)] at hv
        have hb : (if cfg.direction > 0 then s.id ≤ e else e ≤ s.id) := by
          simp only [doneP, hend, Bool.or_eq_false_iff] at hdp
          obtain ⟨h1, _⟩ := hdp
          split_ifs at h1 ⊢ with hdir
          · simp only [decide_eq_false_iff_not] at h1
            omega
          · simp only [decide_eq_false_iff_not] at h1
            omega
        rcases hra : (runIter cfg s.id s os ds).abort with _ | _
        · rw [hra] at hv
          rw [if_neg (show ¬ (false = true) by simp)] at hv
          rcases hqa : (stepQ cfg s os ds).abort with _ | _
          · rw [hqa] at hv
            rw [if_neg (show ¬ (false = true) by simp)] at hv
            have hv2 : Ev.cursor v ∈ Ev.cursor s.id ::
                ((stepQ cfg s os ds).tr
                  ++ (runCursor cfg fuel (stepQ cfg s os ds).s (stepQ cfg s os ds).os
                        (stepQ cfg s os ds).ds fs.tail).tr) := hv
            rcases List.mem_cons.mp hv2 with h | h
            · injection h with h
              subst h
              exact hb
            · rcases List.mem_append.mp h with h | h
              · exact absurd h (stepQ_no_cursor cfg v s os ds)
              · exact runCursor_cursor_bound cfg e hend fuel _ _ _ _ v h
          · rw [hqa, if_pos rfl] at hv
            have hv2 : Ev.cursor v ∈ Ev.cursor s.id :: (stepQ cfg s os ds).tr := hv
            rcases List.mem_cons.mp hv2 with h | h
            · injection h with h
              subst h
              exact hb
            · exact absurd h (stepQ_no_cursor cfg v s os ds)
        · rw [hra, if_pos rfl] at hv
          have hv2 : Ev.cursor v ∈ [Ev.cursor s.id] := hv
          rcases List.mem_cons.mp hv2 with h | h
          · injection h with h
            subst h
            exact hb
          · exact absurd h (List.not_mem_nil _)

/-- A halt of the sequencer always means the done predicate held at the poll
made for the halting state: some suffix of the flag oracle was current and its
head flag, together with the halting cursor value, satisfies `doneP`. -/
theorem runCursor_halted_done (cfg : Cfg) :
    ∀ (fuel : Nat) (s : CState) (os : List Outcome) (ds fs : List Bool) (s' : CState),
      (runCursor cfg fuel s os ds fs).res = RunRes.halted s' →
      ∃ g : List Bool, List.IsSuffix g fs ∧ doneP cfg s'.id (g.headD false) = true
  | 0, s, os, ds, fs, s' => by
      intro h
      have h2 : RunRes.fuelOut s = RunRes.halted s' := h
      exact absurd h2 (by simp)
  | fuel+1, s, os, ds, fs, s' => by
      intro h
      rw [runCursor_succ_exp] at h
      by_cases hdp : doneP cfg s.id (fs.headD false) = true
      · rw [if_pos hdp] at h
        have h2 : RunRes.halted s = RunRes.halted s' := h
        injection h2 with h2
        subst h2
        exact ⟨fs, List.suffix_refl fs, hdp⟩
      · simp only [Bool.not_eq_true] at hdp
        rw [if_neg (show ¬ (doneP cfg s.id (fs.headD false) = true) by rw [hdp]; simp)] at h
        rcases hra : (runIter cfg s.id s os ds).abort with _ | _
        · rw [hra] at h
          rw [if_neg (show ¬ (false = true) by simp)] at h
          rcases hqa : (stepQ cfg s os ds).abort with _ | _
          · rw [hqa] at h
            rw [if_neg (show ¬ (false = true) by simp)] at h
            have h2 : (runCursor cfg fuel (stepQ cfg s os ds).s (stepQ cfg s os ds).os
                (stepQ cfg s os ds).ds fs.tail).res = RunRes.halted s' := h
            obtain ⟨g, hg, hdone⟩ := runCursor_halted_done cfg fuel _ _ _ _ s' h2
            exact ⟨g, hg.trans (List.tail_suffix fs), hdone⟩
          · rw [hqa, if_pos rfl] at h
            have h2 : RunRes.aborted (stepQ cfg s os ds).s = RunRes.halted s' := h
            exact absurd h2 (by simp)
        · rw [hra, if_pos rfl] at h
          have h2 : RunRes.aborted (runIter cfg s.id s os ds).s = RunRes.halted s' := h
          exact absurd h2 (by simp)

/-- C7 counterexample: with start 100, step +1 and ending bound 110, a
reachable run (no-content outcomes triggering the idle-backoff rewind at
skipMax 4) yields the cursor value 98, strictly below
min(start, end) = 100 - the claimed interval does not bound the yields. -/
theorem c7_counterexample :
    (runMachine ⟨1, 4, some 110⟩ 3 ⟨100, [[], [], []], [], 0, false⟩
        [.noSubmission, .responseNotOk 503, .noSubmission, .noSubmission,
         .invalidSubmission, .invalidSubmission, .responseNotOk 503,
         .noSubmission, .invalidSubmission, .ok]
        [true, false, true, false, false] [false, false, false]).tr
      = [.cursor 100, .url 100, .cursor 101, .url 100, .cursor 98]
    ∧ (98 : Int) < min 100 110 := by decide

/-- C7 (amended): with an ending bound configured, the sequencer never yields
a cursor value beyond the bound in the direction of travel (at most the bound
crawling forward, at least the bound crawling backward) - the idle-backoff
rewind can however carry yields outside [min(start, end), max(start, end)] on
the start side - and it halts exactly at a poll whose flag and cursor value
satisfy the done predicate (bound passed in the direction of travel, or
cancellation flag observed true): a halt exhibits such a poll, and a
satisfied poll halts the sequencer on the spot. -/
theorem cursor_bound_and_halt (cfg : Cfg) (e : Int) (fuel : Nat) (s : CState)
    (os : List Outcome) (ds fs : List Bool) (hend : cfg.endingid = some e) :
    (∀ v : Int, Ev.cursor v ∈ (runCursor cfg fuel s os ds fs).tr →
        (if cfg.direction > 0 then v ≤ e else e ≤ v))
    ∧ (∀ s' : CState, (runCursor cfg fuel s os ds fs).res = RunRes.halted s' →
        ∃ g : List Bool, List.IsSuffix g fs ∧ doneP cfg s'.id (g.headD false) = true)
    ∧ (0 < fuel → doneP cfg s.id (fs.headD false) = true →
        runCursor cfg fuel s os ds fs = ⟨RunRes.halted s, []⟩) :=
  ⟨fun v hv => runCursor_cursor_bound cfg e hend fuel s os ds fs v hv,
   fun s' h => runCursor_halted_done cfg fuel s os ds fs s' h,
   fun h0 hdp => runCursor_done_halt cfg fuel s os ds fs h0 hdp⟩

/-- Witness for C7: a cursor already past the bound halts the sequencer
immediately. -/
theorem cursor_bound_and_halt_witness :
    runCursor ⟨1, 3, some 10⟩ 1 ⟨11, [[]], [], 0, false⟩ [] [] []
      = ⟨RunRes.halted ⟨11, [[]], [], 0, false⟩, []⟩ :=
  (cursor_bound_and_halt ⟨1, 3, some 10⟩ 10 1 ⟨11, [[]], [], 0, false⟩ [] [] [] rfl).2.2
    (by decide) (by decide)



/-! ## Claim C9 -/

/-- An iteration on an ok outcome with no timed drain leaves the state
untouched (the counter was already 0). -/
theorem runIter_ok (cfg : Cfg) (u idv : Int) (sk : List (List Int)) (urls : List Int)
    (os' : List Outcome) :
    runIter cfg u ⟨idv, sk, urls, 0, false⟩ (.ok :: os') []
      = ⟨⟨idv, sk, urls, 0, false⟩, os', [], false⟩ := by
  simp [runIter, crawl, isTruthy]

/-- One-step unfolding of `runExplicit` on positive fuel and a non-empty
explicit list, stated on a literal state. -/
theorem runExplicit_cons_lit (cfg : Cfg) (fuel : Nat) (idv : Int) (sk : List (List Int))
    (u : Int) (rest : List Int) (c : Nat) (chk : Bool) (os : List Outcome)
    (ds : List Bool) :
    runExplicit cfg (fuel+1) ⟨idv, sk, u :: rest, c, chk⟩ os ds =
      (if (runIter cfg u ⟨idv, sk, rest, c, chk⟩ os ds).abort then
        ⟨.aborted (runIter cfg u ⟨idv, sk, rest, c, chk⟩ os ds).s, [.url u]⟩
      else
        ⟨(runExplicit cfg fuel (runIter cfg u ⟨idv, sk, rest, c, chk⟩ os ds).s
            (runIter cfg u ⟨idv, sk, rest, c, chk⟩ os ds).os
            (runIter cfg u ⟨idv, sk, rest, c, chk⟩ os ds).ds).res,
         .url u :: (runExplicit cfg fuel (runIter cfg u ⟨idv, sk, rest, c, chk⟩ os ds).s
            (runIter cfg u ⟨idv, sk, rest, c, chk⟩ os ds).os
            (runIter cfg u ⟨idv, sk, rest, c, chk⟩ os ds).ds).tr⟩) := rfl

/-- Explicit mode with an all-ok oracle and no timed drains: every entry of
the list is yielded, first to last, the machine then halts with the list
exhausted, and the cursor is left exactly where it started. -/
theorem runExplicit_ok_drain (cfg : Cfg) :
    ∀ (urls : List Int) (idv : Int) (sk : List (List Int)),
      runExplicit cfg (urls.length + 1) ⟨idv, sk, urls, 0, false⟩
        (List.replicate urls.length .ok) []
      = ⟨RunRes.halted ⟨idv, sk, [], 0, false⟩, urls.map Ev.url⟩
  | [], idv, sk => rfl
  | u :: rest, idv, sk => by
      have hri : runIter cfg u ⟨idv, sk, rest, 0, false⟩
          (Outcome.ok :: List.replicate rest.length Outcome.ok) []
          = ⟨⟨idv, sk, rest, 0, false⟩, List.replicate rest.length Outcome.ok, [], false⟩ :=
        runIter_ok cfg u idv sk rest (List.replicate rest.length Outcome.ok)
      have hIH := runExplicit_ok_drain cfg rest idv sk
      simp only [List.length_cons, List.replicate_succ, List.map_cons]
      rw [runExplicit_cons_lit, hri]
      show (⟨(runExplicit cfg (rest.length + 1) ⟨idv, sk, rest, 0, false⟩
          (List.replicate rest.length Outcome.ok) []).res,
        Ev.url u :: (runExplicit cfg (rest.length + 1) ⟨idv, sk, rest, 0, false⟩
          (List.replicate rest.length Outcome.ok) []).tr⟩ : RunOut)
        = ⟨RunRes.halted ⟨idv, sk, [], 0, false⟩, Ev.url u :: rest.map Ev.url⟩
      rw [hIH]

/-- Explicit mode only ever yields url events, never a cursor value. -/
theorem runExplicit_no_cursor (cfg : Cfg) (v : Int) :
    ∀ (fuel : Nat) (s : CState) (os : List Outcome) (ds : List Bool),
      Ev.cursor v ∉ (runExplicit cfg fuel s os ds).tr
  | 0, s, os, ds => by
      intro hv
      exact absurd hv (List.not_mem_nil _)
  | fuel+1, s, os, ds => by
      intro hv
      rcases hu : s.urls with _ | ⟨u, rest⟩
      · simp only [runExplicit, hu] at hv
        exact absurd hv (List.not_mem_nil _)
      · simp only [runExplicit, hu] at hv
        by_cases hra : (runIter cfg u { s with urls := rest } os ds).abort = true
        · rw [if_pos hra] at hv
          have hv2 : Ev.cursor v ∈ [Ev.url u] := hv
          simp at hv2
        · rw [if_neg hra] at hv
          have hv2 : Ev.cursor v ∈ Ev.url u ::
              (runExplicit cfg fuel (runIter cfg u { s with urls := rest } os ds).s
                (runIter cfg u { s with urls := rest } os ds).os
                (runIter cfg u { s with urls := rest } os ds).ds).tr := hv
          rcases List.mem_cons.mp hv2 with h | h
          · simp at h
          · exact absurd h (runExplicit_no_cursor cfg v fuel _ _ _)

/-- Explicit mode halts only with the explicit list exhausted. -/
theorem runExplicit_halted_empty (cfg : Cfg) :
    ∀ (fuel : Nat) (s : CState) (os : List Outcome) (ds : List Bool) (s' : CState),
      (runExplicit cfg fuel s os ds).res = RunRes.halted s' → s'.urls = []
  | 0, s, os, ds, s' => by
      intro h
      have h2 : RunRes.fuelOut s = RunRes.halted s' := h
      exact absurd h2 (by simp)
  | fuel+1, s, os, ds, s' => by
      intro h
      rcases hu : s.urls with _ | ⟨u, rest⟩
      · simp only [runExplicit, hu] at h
        have h2 : RunRes.halted s = RunRes.halted s' := h
        injection h2 with h2
        subst h2
        exact hu
      · simp only [runExplicit, hu] at h
        by_cases hra : (runIter cfg u { s with urls := rest } os ds).abort = true
        · rw [if_pos hra] at h
          have h2 : RunRes.aborted (runIter cfg u { s with urls := rest } os ds).s
              = RunRes.halted s' := h
          exact absurd h2 (by simp)
        · rw [if_neg hra] at h
          have h2 : (runExplicit cfg fuel (runIter cfg u { s with urls := rest } os ds).s
              (runIter cfg u { s with urls := rest } os ds).os
              (runIter cfg u { s with urls := rest } os ds).ds).res = RunRes.halted s' := h
          exact runExplicit_halted_empty cfg fuel _ _ _ s' h2

/-- When explicit mode halts under a non-fatal oracle, its yield trace starts
with every entry of the starting list, first to last - each of them was
yielded before anything appended behind them. -/
theorem runExplicit_halted_prefix (cfg : Cfg) :
    ∀ (fuel : Nat) (s : CState) (os : List Outcome) (ds : List Bool) (s' : CState),
      NF os → (runExplicit cfg fuel s os ds).res = RunRes.halted s' →
      List.IsPrefix (s.urls.map Ev.url) (runExplicit cfg fuel s os ds).tr
  | 0, s, os, ds, s' => by
      intro _ h
      have h2 : RunRes.fuelOut s = RunRes.halted s' := h
      exact absurd h2 (by simp)
  | fuel+1, s, os, ds, s' => by
      intro hnf h
      rcases hu : s.urls with _ | ⟨u, rest⟩
      · simp only [runExplicit, hu]
        exact List.nil_prefix
      · obtain ⟨hra, hrnf, ap, hap⟩ := runIter_frame cfg u { s with urls := rest } os ds hnf
        simp only [runExplicit, hu] at h ⊢
        rw [if_neg (show ¬ ((runIter cfg u { s with urls := rest } os ds).abort = true)
          by rw [hra]; simp)] at h ⊢
        have h2 : (runExplicit cfg fuel (runIter cfg u { s with urls := rest } os ds).s
            (runIter cfg u { s with urls := rest } os ds).os
            (runIter cfg u { s with urls := rest } os ds).ds).res = RunRes.halted s' := h
        have hpre := runExplicit_halted_prefix cfg fuel _ _ _ s' hrnf h2
        rw [hap, List.map_append] at hpre
        have hpre2 : List.IsPrefix (rest.map Ev.url)
            (runExplicit cfg fuel (runIter cfg u { s with urls := rest } os ds).s
              (runIter cfg u { s with urls := rest } os ds).os
              (runIter cfg u { s with urls := rest } os ds).ds).tr :=
          List.IsPrefix.trans (List.prefix_append _ _) hpre
        show List.IsPrefix (Ev.url u :: rest.map Ev.url)
          (Ev.url u :: (runExplicit cfg fuel (runIter cfg u { s with urls := rest } os ds).s
            (runIter cfg u { s with urls := rest } os ds).os
            (runIter cfg u { s with urls := rest } os ds).ds).tr)
        exact List.cons_prefix_cons.mpr ⟨rfl, hpre2⟩

/-- C9: with the explicit list non-empty at engine start, the generator picks
explicit mode; explicit mode never yields a cursor value, ends only with the
queue exhausted, and on a halt under a non-fatal oracle its trace begins with
every entry of the starting queue, first to last (entries appended at runtime
sit behind them in the queue and are covered by the same fact at the later
state); concretely, under an all-ok oracle every entry is yielded FIFO, the
machine halts with the queue empty and the cursor is never read nor
advanced - it ends exactly where it started. -/
theorem explicit_mode_fifo (cfg : Cfg) (fuel : Nat) (s : CState) (os : List Outcome)
    (ds fs : List Bool) :
    (s.urls ≠ [] → runMachine cfg fuel s os ds fs = runExplicit cfg fuel s os ds)
    ∧ (∀ v : Int, Ev.cursor v ∉ (runExplicit cfg fuel s os ds).tr)
    ∧ (∀ s' : CState, (runExplicit cfg fuel s os ds).res = RunRes.halted s' → s'.urls = [])
    ∧ (NF os → ∀ s' : CState, (runExplicit cfg fuel s os ds).res = RunRes.halted s' →
        List.IsPrefix (s.urls.map Ev.url) (runExplicit cfg fuel s os ds).tr)
    ∧ (∀ (urls : List Int) (idv : Int) (sk : List (List Int)),
        runExplicit cfg (urls.length + 1) ⟨idv, sk, urls, 0, false⟩
          (List.replicate urls.length .ok) []
        = ⟨RunRes.halted ⟨idv, sk, [], 0, false⟩, urls.map Ev.url⟩) :=
  ⟨fun h => by rw [runMachine, if_neg (by simpa [List.isEmpty_iff] using h)],
   fun v => runExplicit_no_cursor cfg v fuel s os ds,
   fun s' h => runExplicit_halted_empty cfg fuel s os ds s' h,
   fun hnf s' h => runExplicit_halted_prefix cfg fuel s os ds s' hnf h,
   fun urls idv sk => runExplicit_ok_drain cfg urls idv sk⟩

/-- Witness for C9: a two-entry explicit queue is routed to explicit mode and
drained FIFO, halting with the cursor untouched. -/
theorem explicit_mode_fifo_witness :
    runExplicit ⟨1, 5, none⟩ 3 ⟨42, [[]], [7, 8], 0, false⟩ [.ok, .ok] []
      = ⟨RunRes.halted ⟨42, [[]], [], 0, false⟩, [Ev.url 7, Ev.url 8]⟩
    ∧ runMachine ⟨1, 5, none⟩ 3 ⟨42, [[]], [7, 8], 0, false⟩ [.ok, .ok] [] []
      = runExplicit ⟨1, 5, none⟩ 3 ⟨42, [[]], [7, 8], 0, false⟩ [.ok, .ok] [] :=
  ⟨(explicit_mode_fifo ⟨1, 5, none⟩ 3 ⟨42, [[]], [7, 8], 0, false⟩
      [.ok, .ok] [] []).2.2.2.2 [7, 8] 42 [[]],
   (explicit_mode_fifo ⟨1, 5, none⟩ 3 ⟨42, [[]], [7, 8], 0, false⟩
      [.ok, .ok] [] []).1 (by decide)⟩


end Pycrawl
